import Mathlib

/-!
# Blog backend: authentication, ownership and registration

A shallow embedding of the service layer of the blog backend
(`service/*.go`, `model/model.go`, `utils/jwt.go`, `middleware/auth.go`,
`config/config.go` and the controllers that map service errors to HTTP
status codes), followed by theorems about it.

Modelling conventions.

* The relational store behind `*gorm.DB` is a value of type `DB`: three
  tables, each a list of rows.  A row is *live* when its `DeletedAt` is
  `none`; every gorm query of the program carries the soft-delete scope
  `deleted_at IS NULL`, because all three models have a `gorm.DeletedAt`
  field.  String columns are compared by equality of strings.
* Queries are answered from the table contents.  A write statement may be
  refused by the storage engine for reasons outside the program (a
  constraint, a lost connection): every write takes a `fault` argument,
  `none` when the statement is accepted and `some e` when the engine answers
  with the error `e`.
* A Go `error` is its message, a `(T, error)` result is `Except String T`,
  and a function that writes returns the store after the call as well.
* Time is an integer count of nanoseconds since the Unix epoch, durations
  are integers (nanoseconds); the clock readings a function takes are
  arguments.
* `bcrypt`, the JWT codec and the number loop of `time.ParseDuration` are
  library code, taken as parameters.
* A Go `int` or `int64` is an integer; the results of the arithmetic the
  program does on them are wrapped to 64 bits (`wrap64`).  Primary keys are
  natural numbers.
* A handler that only reads is also given over an arbitrary implementation
  of the service method it calls (`ListPostsWith` and the like), as the
  controllers hold the services through their interfaces.
-/

namespace Blog

deriving instance DecidableEq for Except

/-! ## model/model.go -/

namespace model

/-- User row of the `users` table (the association fields `Posts` and
`Comments` are not columns). -/
structure User where
  ID : Nat
  Username : String
  Password : String
  Email : String
  CreatedAt : Int
  UpdatedAt : Int
  DeletedAt : Option Int
deriving DecidableEq, Repr

/-- Post row of the `posts` table. -/
structure Post where
  ID : Nat
  Title : String
  Content : String
  UserID : Nat
  CreatedAt : Int
  UpdatedAt : Int
  DeletedAt : Option Int
deriving DecidableEq, Repr

/-- Comment row of the `comments` table. -/
structure Comment where
  ID : Nat
  Content : String
  UserID : Nat
  PostID : Nat
  CreatedAt : Int
  DeletedAt : Option Int
deriving DecidableEq, Repr

end model

open model

/-- Contents of the database: the three tables migrated by `AutoMigrate`. -/
structure DB where
  users : List User
  posts : List Post
  comments : List Comment
deriving DecidableEq, Repr

/-! ## The two bcrypt functions the program calls -/

/-- Interface of `golang.org/x/crypto/bcrypt` as used by the program.
`GenerateFromPassword salt password` is the hash computed with the random
salt `salt` at `bcrypt.DefaultCost`, or an error;
`CompareHashAndPassword hashed password` is `true` exactly when the Go
function returns a nil error. -/
structure Bcrypt where
  GenerateFromPassword : String → String → Except String String
  CompareHashAndPassword : String → String → Bool

/-- Contract of bcrypt: a hash produced from a password is accepted for that
password. -/
def Bcrypt.Sound (B : Bcrypt) : Prop :=
  ∀ salt password hashed,
    B.GenerateFromPassword salt password = .ok hashed →
      B.CompareHashAndPassword hashed password = true

/-- Contract of bcrypt, its one-way property in the form the program relies
on: no text is accepted as a hash of itself. -/
def Bcrypt.Hiding (B : Bcrypt) : Prop :=
  ∀ password, B.CompareHashAndPassword password password = false

/-- A small stand-in for bcrypt used to instantiate the interface: the
"hash" is a marker, the salt and the password. -/
def toyBcrypt : Bcrypt where
  GenerateFromPassword salt password := .ok ("$2a$10$" ++ salt ++ "$" ++ password)
  CompareHashAndPassword hashed password :=
    ("$" ++ password).data.isSuffixOf hashed.data

/-! ## gorm query primitives -/

/-- Clause `ORDER BY id LIMIT 1` of `First`: the row with the least primary
key among `rows` (the earliest one on a tie), `none` for no rows. -/
def firstByID {α : Type} (key : α → Nat) : List α → Option α
  | [] => none
  | r :: rs =>
    match firstByID key rs with
    | none => some r
    | some m => if key r ≤ key m then some r else some m

/-- Value the auto-increment primary key takes on the next insert. -/
def nextID {α : Type} (key : α → Nat) (rows : List α) : Nat :=
  (rows.map key).foldr max 0 + 1

/-- Error of gorm for a `First` that matches no row. -/
def ErrRecordNotFound : String := "record not found"

namespace DB

/-- Query `db.Where("username = ?", username).First(&user)`. -/
def firstUserByUsername (db : DB) (username : String) : Option User :=
  firstByID User.ID
    (db.users.filter fun u => u.DeletedAt.isNone && decide (u.Username = username))

/-- Query `db.Where("email = ?", email).First(&user)`. -/
def firstUserByEmail (db : DB) (email : String) : Option User :=
  firstByID User.ID
    (db.users.filter fun u => u.DeletedAt.isNone && decide (u.Email = email))

/-- Query `db.First(&user, id)`. -/
def firstUser (db : DB) (id : Nat) : Option User :=
  firstByID User.ID (db.users.filter fun u => u.DeletedAt.isNone && decide (u.ID = id))

/-- Query `db.First(&post, id)`. -/
def firstPost (db : DB) (id : Nat) : Option Post :=
  firstByID Post.ID (db.posts.filter fun p => p.DeletedAt.isNone && decide (p.ID = id))

/-- Query `db.First(&comment, id)`. -/
def firstComment (db : DB) (id : Nat) : Option Comment :=
  firstByID Comment.ID
    (db.comments.filter fun c => c.DeletedAt.isNone && decide (c.ID = id))

end DB

/-- Hook `(*User).BeforeSave`: a non-empty password is replaced by its bcrypt
hash; an empty one is left as it is. -/
def model.User.BeforeSave (B : Bcrypt) (salt : String) (u : User) : Except String User :=
  if 0 < u.Password.utf8ByteSize then
    match B.GenerateFromPassword salt u.Password with
    | .error e => .error e
    | .ok hashedPassword => .ok { u with Password := hashedPassword }
  else
    .ok u

namespace DB

/-- Statement `db.Create(user)`: runs the `BeforeSave` hook, then inserts the
row with a fresh primary key and both timestamps set to `now`.  Returns the
row as written back into `user`, and the new store. -/
def createUser (db : DB) (B : Bcrypt) (salt : String) (now : Int) (fault : Option String)
    (user : User) : Except String (User × DB) :=
  match user.BeforeSave B salt with
  | .error e => .error e
  | .ok hashed =>
    match fault with
    | some e => .error e
    | none =>
      let row := { hashed with ID := nextID User.ID db.users, CreatedAt := now, UpdatedAt := now }
      .ok (row, { db with users := db.users ++ [row] })

/-- Statement `db.Create(post)`. -/
def createPost (db : DB) (now : Int) (fault : Option String) (post : Post) :
    Except String (Post × DB) :=
  match fault with
  | some e => .error e
  | none =>
    let row := { post with ID := nextID Post.ID db.posts, CreatedAt := now, UpdatedAt := now }
    .ok (row, { db with posts := db.posts ++ [row] })

/-- Statement `db.Create(comment)`. -/
def createComment (db : DB) (now : Int) (fault : Option String) (comment : Comment) :
    Except String (Comment × DB) :=
  match fault with
  | some e => .error e
  | none =>
    let row := { comment with ID := nextID Comment.ID db.comments, CreatedAt := now }
    .ok (row, { db with comments := db.comments ++ [row] })

/-- Statement `db.Save(&post)`: writes every column of `post`, with
`UpdatedAt` set to `now`, to the live rows whose primary key is `post.ID`. -/
def savePost (db : DB) (now : Int) (fault : Option String) (post : Post) :
    Except String (Post × DB) :=
  match fault with
  | some e => .error e
  | none =>
    let row := { post with UpdatedAt := now }
    .ok (row, { db with posts := db.posts.map fun p =>
      if p.DeletedAt.isNone && decide (p.ID = post.ID) then row else p })

/-- Statement `db.Delete(&post)`: a soft delete, `deleted_at` of the live rows
whose primary key is `post.ID` is set to `now`. -/
def deletePost (db : DB) (now : Int) (fault : Option String) (post : Post) :
    Except String DB :=
  match fault with
  | some e => .error e
  | none =>
    .ok { db with posts := db.posts.map fun p =>
      if p.DeletedAt.isNone && decide (p.ID = post.ID) then { p with DeletedAt := some now } else p }

/-- Statement `db.Delete(&comment)`: a soft delete. -/
def deleteComment (db : DB) (now : Int) (fault : Option String) (comment : Comment) :
    Except String DB :=
  match fault with
  | some e => .error e
  | none =>
    .ok { db with comments := db.comments.map fun c =>
      if c.DeletedAt.isNone && decide (c.ID = comment.ID) then
        { c with DeletedAt := some now } else c }

end DB

/-! ## service/user_service.go -/

namespace service

/-- Method `userService.CreateUser`.  `salt`, `now` and `fault` are what the
insert takes from its environment. -/
def CreateUser (B : Bcrypt) (db : DB) (salt : String) (now : Int) (fault : Option String)
    (username email password : String) : Except String User × DB :=
  match db.firstUserByUsername username with
  | some _ => (.error "用户名已存在", db)
  | none =>
    match db.firstUserByEmail email with
    | some _ => (.error "邮箱已存在", db)
    | none =>
      let user : User :=
        { ID := 0, Username := username, Email := email, Password := password,
          CreatedAt := 0, UpdatedAt := 0, DeletedAt := none }
      match db.createUser B salt now fault user with
      | .error e => (.error e, db)
      | .ok (created, db') => (.ok created, db')

/-- Method `userService.Login`. -/
def Login (B : Bcrypt) (db : DB) (username password : String) : Except String User :=
  match db.firstUserByUsername username with
  | none => .error "用户名或密码错误"
  | some user =>
    if B.CompareHashAndPassword user.Password password then .ok user
    else .error "用户名或密码错误"

/-- Method `userService.GetUserByID`. -/
def GetUserByID (db : DB) (id : Nat) : Except String User :=
  match db.firstUser id with
  | none => .error ErrRecordNotFound
  | some user => .ok user

/-- Method `userService.GetUserByUsername`. -/
def GetUserByUsername (db : DB) (username : String) : Except String User :=
  match db.firstUserByUsername username with
  | none => .error ErrRecordNotFound
  | some user => .ok user

/-! ## service/post_service.go -/

/-- Method `postService.CreatePost`. -/
def CreatePost (db : DB) (now : Int) (fault : Option String) (title content : String)
    (userID : Nat) : Except String Post × DB :=
  let post : Post :=
    { ID := 0, Title := title, Content := content, UserID := userID,
      CreatedAt := 0, UpdatedAt := 0, DeletedAt := none }
  match db.createPost now fault post with
  | .error e => (.error e, db)
  | .ok (created, db') => (.ok created, db')

/-- Method `postService.UpdatePost`. -/
def UpdatePost (db : DB) (now : Int) (fault : Option String) (id : Nat)
    (title content : String) (userID : Nat) : Except String Post × DB :=
  match db.firstPost id with
  | none => (.error "文章不存在", db)
  | some post =>
    if post.UserID ≠ userID then (.error "没有权限更新此文章", db)
    else
      match db.savePost now fault { post with Title := title, Content := content } with
      | .error e => (.error e, db)
      | .ok (saved, db') => (.ok saved, db')

/-- Method `postService.DeletePost`. -/
def DeletePost (db : DB) (now : Int) (fault : Option String) (id userID : Nat) :
    Except String Unit × DB :=
  match db.firstPost id with
  | none => (.error "文章不存在", db)
  | some post =>
    if post.UserID ≠ userID then (.error "没有权限删除此文章", db)
    else
      match db.deletePost now fault post with
      | .error e => (.error e, db)
      | .ok db' => (.ok (), db')

/-! ## service/comment_service.go -/

/-- Method `commentService.CreateComment`. -/
def CreateComment (db : DB) (now : Int) (fault : Option String) (content : String)
    (userID postID : Nat) : Except String Comment × DB :=
  match db.firstPost postID with
  | none => (.error "文章不存在", db)
  | some _ =>
    let comment : Comment :=
      { ID := 0, Content := content, UserID := userID, PostID := postID,
        CreatedAt := 0, DeletedAt := none }
    match db.createComment now fault comment with
    | .error e => (.error e, db)
    | .ok (created, db') => (.ok created, db')

/-- Method `commentService.GetCommentByID`. -/
def GetCommentByID (db : DB) (id : Nat) : Except String Comment :=
  match db.firstComment id with
  | none => .error ErrRecordNotFound
  | some comment => .ok comment

/-- Method `commentService.DeleteComment`. -/
def DeleteComment (db : DB) (now : Int) (fault : Option String) (id userID : Nat) :
    Except String Unit × DB :=
  match db.firstComment id with
  | none => (.error "评论不存在", db)
  | some comment =>
    if comment.UserID ≠ userID then (.error "没有权限删除此评论", db)
    else
      match db.deleteComment now fault comment with
      | .error e => (.error e, db)
      | .ok db' => (.ok (), db')

end service

/-! ## config/config.go -/

namespace config

/-- Application configuration. -/
structure Config where
  DBHost : String
  DBPort : String
  DBUser : String
  DBPassword : String
  DBName : String
  DBCharset : String
  JWTSecret : String
  JWTExpiry : String
  ServerPort : String
  GinMode : String
deriving DecidableEq, Repr

/-- Function `getEnv`; `env` is `os.Getenv`, which is empty for an unset
variable. -/
def getEnv (env : String → String) (key defaultValue : String) : String :=
  let value := env key
  if value = "" then defaultValue else value

/-- Function `LoadConfig`; `env` is the process environment after
`godotenv.Load`, whose failure is only logged. -/
def LoadConfig (env : String → String) : Except String Config :=
  .ok
    { DBHost := getEnv env "DB_HOST" "localhost"
      DBPort := getEnv env "DB_PORT" "3306"
      DBUser := getEnv env "DB_USER" "root"
      DBPassword := getEnv env "DB_PASSWORD" "root"
      DBName := getEnv env "DB_NAME" "blog_db"
      DBCharset := getEnv env "DB_CHARSET" "utf8mb4"
      JWTSecret := getEnv env "JWT_SECRET" "default_secret"
      JWTExpiry := getEnv env "JWT_EXPIRATION" "720h"
      ServerPort := getEnv env "SERVER_PORT" "8080"
      GinMode := getEnv env "GIN_MODE" "debug" }

end config

open config

/-! ## Library functions used by utils/jwt.go and middleware/auth.go -/

/-- Function `quote` of package `time`, for text without characters that
need escaping. -/
def quote (s : String) : String := "\"" ++ s ++ "\""

/-- Function `time.ParseDuration` of the Go library with its prologue spelled
out: an optional sign, the literal `0`, the empty string, and the test that
what follows starts with a digit or a period.  `loop` stands for the loop
over the number-and-unit groups, which yields the magnitude in nanoseconds or
an error. -/
def ParseDuration (loop : List Char → Except String Nat) (orig : String) : Except String Int :=
  let signed : Bool × List Char :=
    match orig.data with
    | '-' :: r => (true, r)
    | '+' :: r => (false, r)
    | r => (false, r)
  if signed.2 = ['0'] then .ok 0
  else
    match signed.2 with
    | [] => .error ("time: invalid duration " ++ quote orig)
    | c :: _ =>
      if !(c = '.' || c.isDigit) then .error ("time: invalid duration " ++ quote orig)
      else
        match loop signed.2 with
        | .error e => .error e
        | .ok d =>
          if signed.1 then .ok (-(d : Int))
          else if d > 2 ^ 63 - 1 then .error ("time: invalid duration " ++ quote orig)
          else .ok (d : Int)

/-- Call `strings.SplitN(s, " ", 2)`: the text before and after the first
space, or `s` alone when it has no space. -/
def SplitN2 (s : String) : List String :=
  match s.data.span (fun c => c != ' ') with
  | (_, []) => [s]
  | (before, _ :: after) => [String.mk before, String.mk after]

namespace utils

/-- Struct `Claims`: the custom `user_id` and the registered claims the
program sets (numeric dates in nanoseconds since the epoch, absent when the
JSON member is missing). -/
structure Claims where
  UserID : Nat
  ExpiresAt : Option Int
  IssuedAt : Option Int
  NotBefore : Option Int
  Issuer : String
deriving DecidableEq, Repr

end utils

open utils

namespace jwt

/-- Nanoseconds in `jwt.TimePrecision`, one second. -/
def TimePrecision : Int := 1000000000

/-- Function `jwt.NewNumericDate`: the time truncated to `TimePrecision`. -/
def NewNumericDate (t : Int) : Int := t - t % TimePrecision

/-- Whether a numeric date is a whole number of seconds, as every date made
by `NewNumericDate` is. -/
def wholeSecond (d : Option Int) : Prop :=
  ∀ t, d = some t → t % TimePrecision = 0

/-- Interface of the JWT codec of `golang-jwt/jwt/v5` for HMAC keys.
`SignedString claims key` is the compact serialisation signed with `key`;
`decode token` is the claim set carried by a well-formed token, whatever its
signature; `verify token key` is `true` when the signature of `token` is
valid for `key`. -/
structure Codec where
  SignedString : Claims → String → Except String String
  decode : String → Option Claims
  verify : String → String → Bool

/-- Contract of the codec: a token it signed carries the claims it was given
(dates being whole seconds, the precision of the serialisation) and verifies
under the signing key. -/
def Codec.Sound (J : Codec) : Prop :=
  ∀ (claims : Claims) (key token : String),
    wholeSecond claims.ExpiresAt → wholeSecond claims.IssuedAt →
    wholeSecond claims.NotBefore →
    J.SignedString claims key = .ok token →
      J.decode token = some claims ∧ J.verify token key = true

/-- Time validation of the registered claims by the default validator of
`jwt/v5`: an expiry, when present, must be after `now`; a not-before, when
present, must not be after `now`; the issued-at is not checked. -/
def validate (now : Int) (claims : Claims) : Bool :=
  (match claims.ExpiresAt with
    | none => true
    | some exp => decide (now < exp)) &&
  (match claims.NotBefore with
    | none => true
    | some nbf => decide (nbf ≤ now))

/-- Function `jwt.ParseWithClaims` with a key function that returns `key`:
the claims of a token that is well formed, carries a valid signature and
passes the time validation; `none` stands for a non-nil error or an invalid
token. -/
def ParseWithClaims (J : Codec) (tokenString key : String) (now : Int) : Option Claims :=
  match J.decode tokenString with
  | none => none
  | some claims =>
    if J.verify tokenString key then
      if validate now claims then some claims else none
    else none

end jwt

/-! ## utils/jwt.go -/

namespace utils

/-- Function `GenerateToken`; `t1`, `t2`, `t3` are the three successive
readings of `time.Now()`. -/
def GenerateToken (J : jwt.Codec) (loop : List Char → Except String Nat) (userID : Nat)
    (cfg : Config) (t1 t2 t3 : Int) : Except String String :=
  match ParseDuration loop cfg.JWTExpiry with
  | .error e => .error e
  | .ok expirationTime =>
    let claims : Claims :=
      { UserID := userID
        ExpiresAt := some (jwt.NewNumericDate (t1 + expirationTime))
        IssuedAt := some (jwt.NewNumericDate t2)
        NotBefore := some (jwt.NewNumericDate t3)
        Issuer := "blog-backend" }
    J.SignedString claims cfg.JWTSecret

end utils

/-! ## middleware/auth.go -/

namespace middleware

/-- What the middleware does with a request: it aborts with a status and an
error message, or stores `userID` in the context and runs the next handler. -/
inductive Outcome where
  | abort (status : Nat) (error : String)
  | next (userID : Nat)
deriving DecidableEq, Repr

/-- Handler returned by `AuthMiddleware(cfg)`, applied to the value of the
`Authorization` header (empty when the header is absent) at time `now`. -/
def AuthMiddleware (J : jwt.Codec) (cfg : Config) (now : Int) (authHeader : String) : Outcome :=
  if authHeader = "" then .abort 401 "未提供认证令牌"
  else
    match SplitN2 authHeader with
    | [scheme, tokenString] =>
      if scheme = "Bearer" then
        match jwt.ParseWithClaims J tokenString cfg.JWTSecret now with
        | none => .abort 401 "无效的认证令牌"
        | some claims => .next claims.UserID
      else .abort 401 "认证令牌格式错误"
    | _ => .abort 401 "认证令牌格式错误"

end middleware

/-! ## controller/*.go -/

namespace controller

/-- Scalar member of a JSON response (times are numbers here). -/
inductive Scalar where
  | str (s : String)
  | num (n : Int)
deriving DecidableEq, Repr

/-- Member of a `gin.H` response body: a scalar, an object of scalars or a
list of such objects. -/
inductive JSON where
  | val (v : Scalar)
  | obj (fields : List (String × Scalar))
  | arr (items : List (List (String × Scalar)))
deriving DecidableEq, Repr

/-- Response written by `ctx.JSON(status, body)`. -/
structure Response where
  status : Nat
  body : List (String × JSON)
deriving DecidableEq, Repr

/-- Response `ctx.JSON(status, gin.H("error": msg))`. -/
def errorResponse (status : Nat) (msg : String) : Response :=
  { status := status, body := [("error", .val (.str msg))] }

/-- Call `strconv.ParseUint(s, 10, 32)`: a non-empty string of decimal digits
whose value fits 32 bits. -/
def ParseUint32 (s : String) : Option Nat :=
  if s.data = [] then none
  else if s.data.all Char.isDigit then
    let n := s.data.foldl (fun n c => n * 10 + (c.toNat - '0'.toNat)) 0
    if n < 2 ^ 32 then some n else none
  else none

/-- Body of a registration request after binding. -/
structure RegisterInput where
  Username : String
  Email : String
  Password : String
deriving DecidableEq, Repr

/-- What the binding tags of `Register` demand of a body that
`ShouldBindJSON` accepts: `username` is `required,min=3,max=50` and
`password` is `required,min=6`, lengths counted in characters; of the
`email` rule only `required` is kept, the format check being the
validator's. -/
def RegisterInput.Bound (input : RegisterInput) : Prop :=
  3 ≤ input.Username.length ∧ input.Username.length ≤ 50 ∧ input.Email ≠ "" ∧
    6 ≤ input.Password.length

instance (input : RegisterInput) : Decidable input.Bound := by
  unfold RegisterInput.Bound
  infer_instance

/-- Body of a login request after binding. -/
structure LoginInput where
  Username : String
  Password : String
deriving DecidableEq, Repr

/-- Body of a post creation or update request after binding. -/
structure PostInput where
  Title : String
  Content : String
deriving DecidableEq, Repr

/-- Handler `UserController.Register`; `bind` is the result of
`ctx.ShouldBindJSON(&input)`. -/
def Register (B : Bcrypt) (db : DB) (salt : String) (now : Int) (fault : Option String)
    (bind : Except String RegisterInput) : Response × DB :=
  match bind with
  | .error e => (errorResponse 400 ("无效的输入数据: " ++ e), db)
  | .ok input =>
    match service.CreateUser B db salt now fault input.Username input.Email input.Password with
    | (.error e, db') => (errorResponse 400 e, db')
    | (.ok user, db') =>
      ({ status := 201
         body := [("message", .val (.str "用户注册成功")),
                  ("user", .obj [("id", .num user.ID), ("username", .str user.Username),
                                 ("email", .str user.Email),
                                 ("created_at", .num user.CreatedAt)])] }, db')

/-- Handler `UserController.Login`; `bind` is the result of
`ctx.ShouldBindJSON(&input)`. -/
def Login (B : Bcrypt) (J : jwt.Codec) (loop : List Char → Except String Nat) (db : DB)
    (cfg : Config) (t1 t2 t3 : Int) (bind : Except String LoginInput) : Response :=
  match bind with
  | .error e => errorResponse 400 ("无效的输入数据: " ++ e)
  | .ok input =>
    match service.Login B db input.Username input.Password with
    | .error e => errorResponse 401 e
    | .ok user =>
      match utils.GenerateToken J loop user.ID cfg t1 t2 t3 with
      | .error _ => errorResponse 500 "生成令牌失败"
      | .ok token =>
        { status := 200
          body := [("message", .val (.str "登录成功")),
                   ("token", .val (.str token)),
                   ("user", .obj [("id", .num user.ID), ("username", .str user.Username),
                                  ("email", .str user.Email)])] }

/-- Handler `PostController.UpdatePost`; `ctxUserID` is the `userID` entry of
the request context, `idParam` the `:id` path segment. -/
def UpdatePost (db : DB) (now : Int) (fault : Option String) (ctxUserID : Option Nat)
    (idParam : String) (bind : Except String PostInput) : Response × DB :=
  match ctxUserID with
  | none => (errorResponse 401 "未认证", db)
  | some userID =>
    match ParseUint32 idParam with
    | none => (errorResponse 400 "无效的文章ID", db)
    | some id =>
      match bind with
      | .error e => (errorResponse 400 ("无效的输入数据: " ++ e), db)
      | .ok input =>
        match service.UpdatePost db now fault id input.Title input.Content userID with
        | (.error e, db') =>
          let statusCode :=
            if e = "文章不存在" then 404
            else if e = "没有权限更新此文章" then 403
            else 500
          (errorResponse statusCode e, db')
        | (.ok post, db') =>
          ({ status := 200
             body := [("message", .val (.str "文章更新成功")),
                      ("post", .obj [("id", .num post.ID), ("title", .str post.Title),
                                     ("content", .str post.Content),
                                     ("updated_at", .num post.UpdatedAt)])] }, db')

/-- Handler `PostController.DeletePost`. -/
def DeletePost (db : DB) (now : Int) (fault : Option String) (ctxUserID : Option Nat)
    (idParam : String) : Response × DB :=
  match ctxUserID with
  | none => (errorResponse 401 "未认证", db)
  | some userID =>
    match ParseUint32 idParam with
    | none => (errorResponse 400 "无效的文章ID", db)
    | some id =>
      match service.DeletePost db now fault id userID with
      | (.error e, db') =>
        let statusCode :=
          if e = "文章不存在" then 404
          else if e = "没有权限删除此文章" then 403
          else 500
        (errorResponse statusCode e, db')
      | (.ok _, db') =>
        ({ status := 200, body := [("message", .val (.str "文章删除成功"))] }, db')

/-- Handler `CommentController.DeleteComment`. -/
def DeleteComment (db : DB) (now : Int) (fault : Option String) (ctxUserID : Option Nat)
    (idParam : String) : Response × DB :=
  match ctxUserID with
  | none => (errorResponse 401 "未认证", db)
  | some userID =>
    match ParseUint32 idParam with
    | none => (errorResponse 400 "无效的评论ID", db)
    | some id =>
      match service.DeleteComment db now fault id userID with
      | (.error e, db') =>
        let statusCode :=
          if e = "评论不存在" then 404
          else if e = "没有权限删除此评论" then 403
          else 500
        (errorResponse statusCode e, db')
      | (.ok _, db') =>
        ({ status := 200, body := [("message", .val (.str "评论删除成功"))] }, db')

end controller

/-! ## Store invariants and the service as a state machine -/

/-- Primary keys identify rows: no two rows of a table have the same `ID`. -/
def DB.PrimaryKeys (db : DB) : Prop :=
  (db.users.map User.ID).Nodup ∧ (db.posts.map Post.ID).Nodup ∧
    (db.comments.map Comment.ID).Nodup

instance (db : DB) : Decidable db.PrimaryKeys := by
  unfold DB.PrimaryKeys
  infer_instance

/-- Uniqueness of credentials: no two live users have the same username, and
no two have the same email. -/
def DB.UniqueUsers (db : DB) : Prop :=
  ((db.users.filter fun u => u.DeletedAt.isNone).map User.Username).Nodup ∧
    ((db.users.filter fun u => u.DeletedAt.isNone).map User.Email).Nodup

instance (db : DB) : Decidable db.UniqueUsers := by
  unfold DB.UniqueUsers
  infer_instance

/-- One call of a service method, with what the call takes from its
environment. -/
inductive Op where
  | CreateUser (salt : String) (now : Int) (fault : Option String)
      (username email password : String)
  | Login (username password : String)
  | GetUserByID (id : Nat)
  | GetUserByUsername (username : String)
  | CreatePost (now : Int) (fault : Option String) (title content : String) (userID : Nat)
  | UpdatePost (now : Int) (fault : Option String) (id : Nat) (title content : String)
      (userID : Nat)
  | DeletePost (now : Int) (fault : Option String) (id userID : Nat)
  | CreateComment (now : Int) (fault : Option String) (content : String) (userID postID : Nat)
  | GetCommentByID (id : Nat)
  | DeleteComment (now : Int) (fault : Option String) (id userID : Nat)
  | GetPostByID (id : Nat)
  | ListPosts (page pageSize : Int)
  | GetUserPosts (userID : Nat) (page pageSize : Int)
  | GetPostComments (postID : Nat) (page pageSize : Int)
deriving DecidableEq, Repr

/-- Store after one call.  The methods that only query (`Login`, the `Get`
and `List` methods, which issue `First`, `Count` and `Find` and no write
statement) leave it as it is. -/
def step (B : Bcrypt) (db : DB) : Op → DB
  | .CreateUser salt now fault username email password =>
    (service.CreateUser B db salt now fault username email password).2
  | .Login _ _ => db
  | .GetUserByID _ => db
  | .GetUserByUsername _ => db
  | .CreatePost now fault title content userID =>
    (service.CreatePost db now fault title content userID).2
  | .UpdatePost now fault id title content userID =>
    (service.UpdatePost db now fault id title content userID).2
  | .DeletePost now fault id userID => (service.DeletePost db now fault id userID).2
  | .CreateComment now fault content userID postID =>
    (service.CreateComment db now fault content userID postID).2
  | .GetCommentByID _ => db
  | .DeleteComment now fault id userID => (service.DeleteComment db now fault id userID).2
  | .GetPostByID _ => db
  | .ListPosts _ _ => db
  | .GetUserPosts _ _ _ => db
  | .GetPostComments _ _ _ => db

/-- Store after a sequence of calls, one after the other. -/
def run (B : Bcrypt) (db : DB) (ops : List Op) : DB :=
  ops.foldl (step B) db

/-! ## Sample data -/

/-- Store without rows. -/
def emptyDB : DB := { users := [], posts := [], comments := [] }

/-- Sample store: alice (1) and bob (2), a post of alice and a comment of bob
on it. -/
def sampleDB : DB :=
  { users :=
      [{ ID := 1, Username := "alice", Password := "$2a$10$salt$secret1", Email := "a@x.com",
         CreatedAt := 100, UpdatedAt := 100, DeletedAt := none },
       { ID := 2, Username := "bob", Password := "$2a$10$pepper$hunter22", Email := "b@x.com",
         CreatedAt := 200, UpdatedAt := 200, DeletedAt := none }]
    posts :=
      [{ ID := 1, Title := "Hello", Content := "First post of alice", UserID := 1,
         CreatedAt := 300, UpdatedAt := 300, DeletedAt := none }]
    comments :=
      [{ ID := 1, Content := "Nice", UserID := 2, PostID := 1, CreatedAt := 400,
         DeletedAt := none }] }

/-- Codec that knows a single token: it signs `claims` under `key` as `token`
and nothing else. -/
def oneTokenCodec (claims : Claims) (key token : String) : jwt.Codec where
  SignedString c k := if c = claims ∧ k = key then .ok token else .error "unsupported claims"
  decode t := if t = token then some claims else none
  verify t k := decide (t = token ∧ k = key)

/-- Stand-in for the number loop of `time.ParseDuration` on the durations
used in the examples. -/
def sampleLoop (s : List Char) : Except String Nat :=
  if s = "720h".data then .ok 2592000000000000
  else if s = "1s".data then .ok 1000000000
  else .error "time: unknown unit"

/-- Configuration with the defaults of `LoadConfig` and the given TTL. -/
def sampleConfig (ttl : String) : Config :=
  { DBHost := "localhost", DBPort := "3306", DBUser := "root", DBPassword := "root",
    DBName := "blog_db", DBCharset := "utf8mb4", JWTSecret := "default_secret",
    JWTExpiry := ttl, ServerPort := "8080", GinMode := "debug" }

/-- Environment in which only `JWT_EXPIRATION` is set. -/
def sampleEnv (ttl : String) (key : String) : String :=
  if key = "JWT_EXPIRATION" then ttl else ""

/-- Claims issued for `userID` at the instant `now` with a lifetime `ttl`. -/
def sampleClaims (userID : Nat) (now ttl : Int) : Claims :=
  { UserID := userID
    ExpiresAt := some (jwt.NewNumericDate (now + ttl))
    IssuedAt := some (jwt.NewNumericDate now)
    NotBefore := some (jwt.NewNumericDate now)
    Issuer := "blog-backend" }

/-! ## Paginated queries -/

/-- Value of an `int` expression on a 64-bit platform: the mathematical value
wrapped to two's complement. -/
def wrap64 (x : Int) : Int := (x + 2 ^ 63) % 2 ^ 64 - 2 ^ 63

/-- Function `strconv.Atoi` on a 64-bit platform: an optional sign and a
non-empty run of decimal digits whose value fits an `int`; `none` for an
error. -/
def Atoi (s : String) : Option Int :=
  let signed : Bool × List Char :=
    match s.data with
    | '-' :: r => (true, r)
    | '+' :: r => (false, r)
    | r => (false, r)
  if signed.2 = [] then none
  else if signed.2.all Char.isDigit then
    let n := signed.2.foldl (fun n c => n * 10 + (c.toNat - '0'.toNat)) 0
    let v : Int := if signed.1 then -(n : Int) else (n : Int)
    if -(2 ^ 63) ≤ v ∧ v < 2 ^ 63 then some v else none
  else none

namespace model

/-- Zero value of `User`: what the `User` field of a post or comment holds
when no row was preloaded into it. -/
def User.zero : User :=
  { ID := 0, Username := "", Password := "", Email := "", CreatedAt := 0, UpdatedAt := 0,
    DeletedAt := none }

/-- Value of type `Comment` as a query returns it: the row and its `User`
association. -/
structure CommentView where
  row : Comment
  User : User
deriving DecidableEq, Repr

/-- Value of type `Post` as a query returns it: the row and its `User` and
`Comments` associations. -/
structure PostView where
  row : Post
  User : User
  Comments : List CommentView
deriving DecidableEq, Repr

end model

namespace DB

/-- Clause `Preload("User")` for one owner key: the live user with that key,
the zero value when there is none. -/
def preloadUser (db : DB) (userID : Nat) : User :=
  (db.firstUser userID).getD User.zero

/-- Live rows of `posts`, the scope of every query on the table. -/
def livePosts (db : DB) : List Post :=
  db.posts.filter fun p => p.DeletedAt.isNone

/-- Live rows of `comments`. -/
def liveComments (db : DB) : List Comment :=
  db.comments.filter fun c => c.DeletedAt.isNone

end DB

/-- Clause `Order("created_at DESC")`: the rows by decreasing creation time
(rows of equal time in table order). -/
def orderByCreatedAtDesc {α : Type} (createdAt : α → Int) (rows : List α) : List α :=
  rows.insertionSort fun a b => createdAt b ≤ createdAt a

/-- Clauses `Offset(offset).Limit(limit)` as gorm builds them: an offset that
is not positive and a limit that is negative are left out of the statement. -/
def offsetLimit {α : Type} (offset limit : Int) (rows : List α) : List α :=
  let skipped := if 0 < offset then rows.drop offset.toNat else rows
  if 0 ≤ limit then skipped.take limit.toNat else skipped

namespace service

/-- Offset `(page - 1) * pageSize` as the three list methods compute it, in
`int` arithmetic. -/
def offset (page pageSize : Int) : Int :=
  wrap64 (wrap64 (page - 1) * pageSize)

/-- Method `postService.GetPostByID`. -/
def GetPostByID (db : DB) (id : Nat) : Except String PostView :=
  match db.firstPost id with
  | none => .error ErrRecordNotFound
  | some post =>
    .ok
      { row := post
        User := db.preloadUser post.UserID
        Comments :=
          (db.liveComments.filter fun c => decide (c.PostID = post.ID)).map fun c =>
            { row := c, User := db.preloadUser c.UserID } }

/-- Method `postService.ListPosts`. -/
def ListPosts (db : DB) (page pageSize : Int) : Except String (List PostView × Int) :=
  let total : Int := db.livePosts.length
  let posts :=
    (offsetLimit (offset page pageSize) pageSize
      (orderByCreatedAtDesc Post.CreatedAt db.livePosts)).map fun p =>
        ({ row := p, User := db.preloadUser p.UserID, Comments := [] } : PostView)
  .ok (posts, total)

/-- Method `postService.GetUserPosts`. -/
def GetUserPosts (db : DB) (userID : Nat) (page pageSize : Int) :
    Except String (List PostView × Int) :=
  let mine := db.livePosts.filter fun p => decide (p.UserID = userID)
  let total : Int := mine.length
  let posts :=
    (offsetLimit (offset page pageSize) pageSize
      (orderByCreatedAtDesc Post.CreatedAt mine)).map fun p =>
        ({ row := p, User := User.zero, Comments := [] } : PostView)
  .ok (posts, total)

/-- Method `commentService.GetPostComments`. -/
def GetPostComments (db : DB) (postID : Nat) (page pageSize : Int) :
    Except String (List CommentView × Int) :=
  match db.firstPost postID with
  | none => .error "文章不存在"
  | some _ =>
    let onPost := db.liveComments.filter fun c => decide (c.PostID = postID)
    let total : Int := onPost.length
    let comments :=
      (offsetLimit (offset page pageSize) pageSize
        (orderByCreatedAtDesc Comment.CreatedAt onPost)).map fun c =>
          ({ row := c, User := db.preloadUser c.UserID } : CommentView)
    .ok (comments, total)

end service

/-! ## controller/*.go, the remaining handlers -/

namespace controller

/-- Page number a list handler uses: `strconv.Atoi(ctx.DefaultQuery("page",
"1"))`, replaced by 1 on an error or a value below 1.  `query` is the value
of the query parameter, `none` when the request has none. -/
def pageParam (query : Option String) : Int :=
  match Atoi (query.getD "1") with
  | none => 1
  | some page => if page < 1 then 1 else page

/-- Page size a list handler uses: `strconv.Atoi(ctx.DefaultQuery(
"page_size", defaultText))`, replaced by `defaultSize` on an error, a value
below 1 or a value above 100. -/
def pageSizeParam (defaultText : String) (defaultSize : Int) (query : Option String) : Int :=
  match Atoi (query.getD defaultText) with
  | none => defaultSize
  | some pageSize => if pageSize < 1 ∨ pageSize > 100 then defaultSize else pageSize

/-- Member `pages` of the pagination object,
`(total + int64(pageSize) - 1) / int64(pageSize)` in `int64` arithmetic
(the handlers call it with a page size of at least 1). -/
def pages (total pageSize : Int) : Int :=
  Int.tdiv (wrap64 (wrap64 (total + pageSize) - 1)) pageSize

/-- Member `pagination` of a list response. -/
def pagination (total page pageSize : Int) : JSON :=
  .obj [("total", .num total), ("page", .num page), ("page_size", .num pageSize),
        ("pages", .num (pages total pageSize))]

/-- Body of a comment creation request after binding. -/
structure CommentInput where
  Content : String
deriving DecidableEq, Repr

/-- Handler `UserController.GetUser` over an implementation `getUserByID` of
the service method. -/
def GetUserWith (getUserByID : Nat → Except String User) (idParam : String) : Response :=
  match ParseUint32 idParam with
  | none => errorResponse 400 "无效的用户ID"
  | some id =>
    match getUserByID id with
    | .error _ => errorResponse 404 "用户不存在"
    | .ok user =>
      { status := 200
        body := [("id", .val (.num user.ID)), ("username", .val (.str user.Username)),
                 ("email", .val (.str user.Email)),
                 ("created_at", .val (.num user.CreatedAt))] }

/-- Handler `UserController.GetUser`. -/
def GetUser (db : DB) (idParam : String) : Response :=
  GetUserWith (service.GetUserByID db) idParam

/-- Handler `PostController.CreatePost`. -/
def CreatePost (db : DB) (now : Int) (fault : Option String) (ctxUserID : Option Nat)
    (bind : Except String PostInput) : Response × DB :=
  match ctxUserID with
  | none => (errorResponse 401 "未认证", db)
  | some userID =>
    match bind with
    | .error e => (errorResponse 400 ("无效的输入数据: " ++ e), db)
    | .ok input =>
      match service.CreatePost db now fault input.Title input.Content userID with
      | (.error e, db') => (errorResponse 500 ("创建文章失败: " ++ e), db')
      | (.ok post, db') =>
        ({ status := 201
           body := [("message", .val (.str "文章创建成功")),
                    ("post", .obj [("id", .num post.ID), ("title", .str post.Title),
                                   ("content", .str post.Content),
                                   ("user_id", .num post.UserID),
                                   ("created_at", .num post.CreatedAt)])] }, db')

/-- Handler `PostController.GetPost` over an implementation of the service
method. -/
def GetPostWith (getPostByID : Nat → Except String PostView) (idParam : String) : Response :=
  match ParseUint32 idParam with
  | none => errorResponse 400 "无效的文章ID"
  | some id =>
    match getPostByID id with
    | .error _ => errorResponse 404 "文章不存在"
    | .ok post =>
      { status := 200
        body := [("id", .val (.num post.row.ID)), ("title", .val (.str post.row.Title)),
                 ("content", .val (.str post.row.Content)),
                 ("user_id", .val (.num post.row.UserID)),
                 ("username", .val (.str post.User.Username)),
                 ("created_at", .val (.num post.row.CreatedAt)),
                 ("updated_at", .val (.num post.row.UpdatedAt)),
                 ("comments", .arr (post.Comments.map fun comment =>
                    [("id", .num comment.row.ID), ("content", .str comment.row.Content),
                     ("user_id", .num comment.row.UserID),
                     ("username", .str comment.User.Username),
                     ("created_at", .num comment.row.CreatedAt)]))] }

/-- Handler `PostController.GetPost`. -/
def GetPost (db : DB) (idParam : String) : Response :=
  GetPostWith (service.GetPostByID db) idParam

/-- Handler `PostController.ListPosts` over an implementation `listPosts` of
the service method; `pageQuery` and `pageSizeQuery` are the two query
parameters. -/
def ListPostsWith (listPosts : Int → Int → Except String (List PostView × Int))
    (pageQuery pageSizeQuery : Option String) : Response :=
  let page := pageParam pageQuery
  let pageSize := pageSizeParam "10" 10 pageSizeQuery
  match listPosts page pageSize with
  | .error e => errorResponse 500 ("获取文章列表失败: " ++ e)
  | .ok (posts, total) =>
    { status := 200
      body := [("posts", .arr (posts.map fun post =>
                  [("id", .num post.row.ID), ("title", .str post.row.Title),
                   ("user_id", .num post.row.UserID),
                   ("username", .str post.User.Username),
                   ("created_at", .num post.row.CreatedAt),
                   ("updated_at", .num post.row.UpdatedAt)])),
               ("pagination", pagination total page pageSize)] }

/-- Handler `PostController.ListPosts`. -/
def ListPosts (db : DB) (pageQuery pageSizeQuery : Option String) : Response :=
  ListPostsWith (service.ListPosts db) pageQuery pageSizeQuery

/-- Handler `PostController.GetUserPosts` over an implementation of the
service method. -/
def GetUserPostsWith (getUserPosts : Nat → Int → Int → Except String (List PostView × Int))
    (userIDParam : String) (pageQuery pageSizeQuery : Option String) : Response :=
  match ParseUint32 userIDParam with
  | none => errorResponse 400 "无效的用户ID"
  | some userID =>
    let page := pageParam pageQuery
    let pageSize := pageSizeParam "10" 10 pageSizeQuery
    match getUserPosts userID page pageSize with
    | .error e => errorResponse 500 ("获取用户文章列表失败: " ++ e)
    | .ok (posts, total) =>
      { status := 200
        body := [("posts", .arr (posts.map fun post =>
                    [("id", .num post.row.ID), ("title", .str post.row.Title),
                     ("created_at", .num post.row.CreatedAt),
                     ("updated_at", .num post.row.UpdatedAt)])),
                 ("pagination", pagination total page pageSize)] }

/-- Handler `PostController.GetUserPosts`. -/
def GetUserPosts (db : DB) (userIDParam : String) (pageQuery pageSizeQuery : Option String) :
    Response :=
  GetUserPostsWith (service.GetUserPosts db) userIDParam pageQuery pageSizeQuery

/-- Handler `CommentController.CreateComment`. -/
def CreateComment (db : DB) (now : Int) (fault : Option String) (ctxUserID : Option Nat)
    (postIDParam : String) (bind : Except String CommentInput) : Response × DB :=
  match ctxUserID with
  | none => (errorResponse 401 "未认证", db)
  | some userID =>
    match ParseUint32 postIDParam with
    | none => (errorResponse 400 "无效的文章ID", db)
    | some postID =>
      match bind with
      | .error e => (errorResponse 400 ("无效的输入数据: " ++ e), db)
      | .ok input =>
        match service.CreateComment db now fault input.Content userID postID with
        | (.error e, db') =>
          let statusCode := if e = "文章不存在" then 404 else 500
          (errorResponse statusCode e, db')
        | (.ok comment, db') =>
          ({ status := 201
             body := [("message", .val (.str "评论创建成功")),
                      ("comment", .obj [("id", .num comment.ID),
                                        ("content", .str comment.Content),
                                        ("user_id", .num comment.UserID),
                                        ("post_id", .num comment.PostID),
                                        ("created_at", .num comment.CreatedAt)])] }, db')

/-- Handler `CommentController.GetPostComments` over an implementation of
the service method. -/
def GetPostCommentsWith
    (getPostComments : Nat → Int → Int → Except String (List CommentView × Int))
    (postIDParam : String) (pageQuery pageSizeQuery : Option String) : Response :=
  match ParseUint32 postIDParam with
  | none => errorResponse 400 "无效的文章ID"
  | some postID =>
    let page := pageParam pageQuery
    let pageSize := pageSizeParam "20" 20 pageSizeQuery
    match getPostComments postID page pageSize with
    | .error e =>
      let statusCode := if e = "文章不存在" then 404 else 500
      errorResponse statusCode e
    | .ok (comments, total) =>
      { status := 200
        body := [("comments", .arr (comments.map fun comment =>
                    [("id", .num comment.row.ID), ("content", .str comment.row.Content),
                     ("user_id", .num comment.row.UserID),
                     ("username", .str comment.User.Username),
                     ("created_at", .num comment.row.CreatedAt)])),
                 ("pagination", pagination total page pageSize)] }

/-- Handler `CommentController.GetPostComments`. -/
def GetPostComments (db : DB) (postIDParam : String) (pageQuery pageSizeQuery : Option String) :
    Response :=
  GetPostCommentsWith (service.GetPostComments db) postIDParam pageQuery pageSizeQuery

end controller

/-! ## router/router.go, the protected group -/

namespace router

/-- Request to one of the five routes registered on the `protected` group,
with its path parameter and bound body. -/
inductive ProtectedRequest where
  | CreatePost (bind : Except String controller.PostInput)
  | UpdatePost (idParam : String) (bind : Except String controller.PostInput)
  | DeletePost (idParam : String)
  | CreateComment (postIDParam : String) (bind : Except String controller.CommentInput)
  | DeleteComment (idParam : String)

/-- Handler of a protected route, run with the request context in which
`userID` is `ctxUserID`. -/
def handler (db : DB) (now : Int) (fault : Option String) (ctxUserID : Option Nat) :
    ProtectedRequest → controller.Response × DB
  | .CreatePost bind => controller.CreatePost db now fault ctxUserID bind
  | .UpdatePost idParam bind => controller.UpdatePost db now fault ctxUserID idParam bind
  | .DeletePost idParam => controller.DeletePost db now fault ctxUserID idParam
  | .CreateComment postIDParam bind =>
    controller.CreateComment db now fault ctxUserID postIDParam bind
  | .DeleteComment idParam => controller.DeleteComment db now fault ctxUserID idParam

/-- Chain `protected.Use(middleware.AuthMiddleware(cfg))` followed by the
handler of the route: the middleware, at time `authTime`, either aborts with
its own response or sets `userID` and lets the handler run. -/
def serveProtected (J : jwt.Codec) (cfg : Config) (db : DB) (authTime now : Int)
    (fault : Option String) (authHeader : String) (req : ProtectedRequest) :
    controller.Response × DB :=
  match middleware.AuthMiddleware J cfg authTime authHeader with
  | .abort status error => (controller.errorResponse status error, db)
  | .next userID => handler db now fault (some userID) req

end router

/-! # Theorems -/

/-! ## Lemmas on queries -/

theorem firstByID_eq_none {α : Type} (key : α → Nat) (l : List α) :
    firstByID key l = none ↔ l = [] := by
  cases l with
  | nil => simp [firstByID]
  | cons r rs =>
    simp only [firstByID]
    cases firstByID key rs with
    | none => simp
    | some m => by_cases h : key r ≤ key m <;> simp [h]

theorem firstByID_mem {α : Type} (key : α → Nat) (l : List α) (m : α)
    (h : firstByID key l = some m) : m ∈ l := by
  induction l generalizing m with
  | nil => simp [firstByID] at h
  | cons r rs ih =>
    simp only [firstByID] at h
    cases hrs : firstByID key rs with
    | none => rw [hrs] at h; simp at h; simp [h]
    | some m' =>
      rw [hrs] at h
      by_cases hle : key r ≤ key m'
      · simp [hle] at h; simp [h]
      · simp [hle] at h; subst h; exact List.mem_cons_of_mem _ (ih _ hrs)

theorem firstByID_singleton {α : Type} (key : α → Nat) (r : α) :
    firstByID key [r] = some r := by
  simp [firstByID]

/-- In a table with unique keys the live rows with the key of a live row `r`
are `r` alone. -/
theorem filter_key_eq_singleton {α : Type} (key : α → Nat) (live : α → Bool)
    (l : List α) (hnd : (l.map key).Nodup) (r : α) (hr : r ∈ l) (hlive : live r = true) :
    l.filter (fun x => live x && decide (key x = key r)) = [r] := by
  induction l with
  | nil => simp at hr
  | cons a as ih =>
    simp only [List.map_cons, List.nodup_cons, List.mem_map, not_exists, not_and] at hnd
    rcases List.mem_cons.mp hr with rfl | hmem
    · have : as.filter (fun x => live x && decide (key x = key r)) = [] := by
        rw [List.filter_eq_nil_iff]
        intro x hx
        have := hnd.1 x hx
        simp [this]
      simp [List.filter_cons, hlive, this]
    · have hne : key a ≠ key r := fun h => hnd.1 r hmem h.symm
      simp [List.filter_cons, hne, ih hnd.2 hmem]

theorem firstPost_of_mem (db : DB) (hpk : db.PrimaryKeys) (P : Post) (hP : P ∈ db.posts)
    (hlive : P.DeletedAt = none) : db.firstPost P.ID = some P := by
  unfold DB.firstPost
  rw [filter_key_eq_singleton Post.ID (fun p => p.DeletedAt.isNone) db.posts hpk.2.1 P hP
    (by simp [hlive])]
  exact firstByID_singleton _ _

theorem firstComment_of_mem (db : DB) (hpk : db.PrimaryKeys) (C : Comment)
    (hC : C ∈ db.comments) (hlive : C.DeletedAt = none) : db.firstComment C.ID = some C := by
  unfold DB.firstComment
  rw [filter_key_eq_singleton Comment.ID (fun c => c.DeletedAt.isNone) db.comments hpk.2.2 C hC
    (by simp [hlive])]
  exact firstByID_singleton _ _

theorem firstPost_eq_none (db : DB) (id : Nat)
    (h : ∀ P ∈ db.posts, P.DeletedAt = none → P.ID ≠ id) : db.firstPost id = none := by
  unfold DB.firstPost
  rw [firstByID_eq_none, List.filter_eq_nil_iff]
  intro P hP
  cases hd : P.DeletedAt with
  | none => simp [h P hP hd]
  | some t => simp

theorem firstComment_eq_none (db : DB) (id : Nat)
    (h : ∀ C ∈ db.comments, C.DeletedAt = none → C.ID ≠ id) : db.firstComment id = none := by
  unfold DB.firstComment
  rw [firstByID_eq_none, List.filter_eq_nil_iff]
  intro C hC
  cases hd : C.DeletedAt with
  | none => simp [h C hC hd]
  | some t => simp

theorem firstUserByUsername_eq_none (db : DB) (username : String)
    (h : ∀ U ∈ db.users, U.DeletedAt = none → U.Username ≠ username) :
    db.firstUserByUsername username = none := by
  unfold DB.firstUserByUsername
  rw [firstByID_eq_none, List.filter_eq_nil_iff]
  intro U hU
  cases hd : U.DeletedAt with
  | none => simp [h U hU hd]
  | some t => simp

theorem firstUserByUsername_some (db : DB) (username : String) (U : User)
    (h : db.firstUserByUsername username = some U) :
    U ∈ db.users ∧ U.DeletedAt = none ∧ U.Username = username := by
  have hm := firstByID_mem _ _ _ h
  simpa [List.mem_filter] using hm

theorem firstUserByUsername_isSome (db : DB) (username : String) (U : User) (hU : U ∈ db.users)
    (hlive : U.DeletedAt = none) (hname : U.Username = username) :
    ∃ V, db.firstUserByUsername username = some V := by
  cases h : db.firstUserByUsername username with
  | some V => exact ⟨V, rfl⟩
  | none =>
    unfold DB.firstUserByUsername at h
    rw [firstByID_eq_none, List.filter_eq_nil_iff] at h
    have := h U hU
    simp [hlive, hname] at this

theorem firstUserByEmail_eq_none (db : DB) (email : String)
    (h : ∀ U ∈ db.users, U.DeletedAt = none → U.Email ≠ email) :
    db.firstUserByEmail email = none := by
  unfold DB.firstUserByEmail
  rw [firstByID_eq_none, List.filter_eq_nil_iff]
  intro U hU
  cases hd : U.DeletedAt with
  | none => simp [h U hU hd]
  | some t => simp

theorem firstUserByEmail_isSome (db : DB) (email : String) (U : User) (hU : U ∈ db.users)
    (hlive : U.DeletedAt = none) (hmail : U.Email = email) :
    ∃ V, db.firstUserByEmail email = some V := by
  cases h : db.firstUserByEmail email with
  | some V => exact ⟨V, rfl⟩
  | none =>
    unfold DB.firstUserByEmail at h
    rw [firstByID_eq_none, List.filter_eq_nil_iff] at h
    have := h U hU
    simp [hlive, hmail] at this


theorem SplitN2_bearer (tok : String) : SplitN2 ("Bearer " ++ tok) = ["Bearer", tok] := by
  have hd : ("Bearer " ++ tok).data = 'B' :: 'e' :: 'a' :: 'r' :: 'e' :: 'r' :: ' ' :: tok.data := by
    rw [String.data_append]; rfl
  unfold SplitN2
  rw [hd]
  simp [List.span, List.span.loop]

theorem bearer_ne_empty (tok : String) : "Bearer " ++ tok ≠ "" := by
  intro h
  have := congrArg String.data h
  rw [String.data_append] at this
  simp at this

theorem oneTokenCodec_sound (claims : Claims) (key token : String) :
    (oneTokenCodec claims key token).Sound := by
  intro c k t _ _ _ h
  simp only [oneTokenCodec] at h
  by_cases hck : c = claims ∧ k = key
  · simp [hck] at h
    simp [oneTokenCodec, hck, h]
  · simp [hck] at h


theorem utf8ByteSize_pos_of_ne_empty (s : String) (h : s ≠ "") : 0 < s.utf8ByteSize := by
  cases s with
  | mk cs =>
    cases cs with
    | nil => exact absurd rfl h
    | cons c cs =>
      simp only [String.utf8ByteSize, String.utf8ByteSize.go]
      have := Char.utf8Size_pos c
      omega

theorem BeforeSave_ok (B : Bcrypt) (salt : String) (u hashed : User)
    (h : u.BeforeSave B salt = .ok hashed) :
    hashed.ID = u.ID ∧ hashed.Username = u.Username ∧ hashed.Email = u.Email ∧
    hashed.CreatedAt = u.CreatedAt ∧ hashed.UpdatedAt = u.UpdatedAt ∧
    hashed.DeletedAt = u.DeletedAt ∧
    (0 < u.Password.utf8ByteSize → B.GenerateFromPassword salt u.Password = .ok hashed.Password) ∧
    (¬ 0 < u.Password.utf8ByteSize → hashed.Password = u.Password) := by
  unfold User.BeforeSave at h
  by_cases hp : 0 < u.Password.utf8ByteSize
  · simp only [hp, if_true] at h
    cases hg : B.GenerateFromPassword salt u.Password with
    | error e => rw [hg] at h; simp at h
    | ok hp' =>
      rw [hg] at h
      simp only [Except.ok.injEq] at h
      subst h
      simp [hp]
  · simp only [hp, if_false] at h
    simp only [Except.ok.injEq] at h
    subst h
    simp [hp]

/-- What a successful `CreateUser` did: both look-ups found nothing, the
insert was accepted, and the returned row, appended to the table, carries
the given username and email and the password as the hook left it. -/
theorem CreateUser_ok (B : Bcrypt) (db db' : DB) (salt : String) (now : Int)
    (fault : Option String) (username email password : String) (u : User)
    (h : service.CreateUser B db salt now fault username email password = (.ok u, db')) :
    db.firstUserByUsername username = none ∧ db.firstUserByEmail email = none ∧
    fault = none ∧ db' = { db with users := db.users ++ [u] } ∧
    u.Username = username ∧ u.Email = email ∧ u.DeletedAt = none ∧
    (0 < password.utf8ByteSize → B.GenerateFromPassword salt password = .ok u.Password) ∧
    (¬ 0 < password.utf8ByteSize → u.Password = password) := by
  unfold service.CreateUser at h
  cases hn : db.firstUserByUsername username with
  | some x => rw [hn] at h; simp at h
  | none =>
    rw [hn] at h
    cases he : db.firstUserByEmail email with
    | some x => rw [he] at h; simp at h
    | none =>
      rw [he] at h
      simp only at h
      unfold DB.createUser at h
      cases hb : User.BeforeSave B salt
          { ID := 0, Username := username, Email := email, Password := password,
            CreatedAt := 0, UpdatedAt := 0, DeletedAt := none } with
      | error e => rw [hb] at h; simp at h
      | ok hashed =>
        rw [hb] at h
        obtain ⟨_, hname, hmail, _, _, hdel, hpw, hpw'⟩ := BeforeSave_ok B salt _ hashed hb
        cases fault with
        | some e => simp at h
        | none =>
          simp only [Prod.mk.injEq, Except.ok.injEq] at h
          obtain ⟨hu, hdb⟩ := h
          subst hu
          subst hdb
          simp only at hname hmail hdel hpw hpw'
          exact ⟨rfl, rfl, rfl, rfl, hname, hmail, hdel, hpw, hpw'⟩

theorem firstUserByUsername_after_create (db : DB) (username : String) (u : User)
    (hnone : db.firstUserByUsername username = none) (hname : u.Username = username)
    (hlive : u.DeletedAt = none) :
    DB.firstUserByUsername { db with users := db.users ++ [u] } username = some u := by
  unfold DB.firstUserByUsername at hnone ⊢
  rw [firstByID_eq_none] at hnone
  simp only [List.filter_append, hnone, List.nil_append]
  simp [List.filter_cons, hlive, hname, firstByID]

theorem toyBcrypt_sound : toyBcrypt.Sound := by
  intro salt password hashed h
  simp only [toyBcrypt, Except.ok.injEq] at h
  subst h
  simp only [toyBcrypt]
  rw [List.isSuffixOf_iff_suffix]
  simp only [String.data_append, List.append_assoc]
  exact (List.suffix_append _ _).trans (List.suffix_append _ _)

theorem toyBcrypt_hiding : toyBcrypt.Hiding := by
  intro password
  simp only [toyBcrypt]
  cases h : ("$" ++ password).data.isSuffixOf password.data with
  | false => rfl
  | true =>
    have hle := (List.isSuffixOf_iff_suffix.mp h).length_le
    rw [String.data_append] at hle
    simp at hle

theorem ne_empty_of_bound (input : controller.RegisterInput) (h : input.Bound) :
    input.Password ≠ "" := by
  intro he
  have h6 := h.2.2.2
  rw [he] at h6
  simp at h6

/-- After a successful `CreateUser` with a non-empty password the look-up by
username gives the created user, and the stored password is what bcrypt made
of the plaintext. -/
theorem CreateUser_then_GetUserByUsername (B : Bcrypt) (db db' : DB) (salt : String)
    (now : Int) (fault : Option String) (username email password : String) (u : User)
    (hnonempty : password ≠ "")
    (hcreate : service.CreateUser B db salt now fault username email password = (.ok u, db')) :
    service.GetUserByUsername db' username = .ok u ∧
    B.GenerateFromPassword salt password = .ok u.Password := by
  obtain ⟨hn, _, _, hdb, hname, _, hlive, hpw, _⟩ :=
    CreateUser_ok B db db' salt now fault username email password u hcreate
  have hgen := hpw (utf8ByteSize_pos_of_ne_empty password hnonempty)
  refine ⟨?_, hgen⟩
  subst hdb
  simp [service.GetUserByUsername, firstUserByUsername_after_create db username u hn hname hlive]

/-- After a successful `CreateUser` with a non-empty password, `Login` with
the same credentials gives the created user. -/
theorem CreateUser_then_Login (B : Bcrypt) (hB : B.Sound) (db db' : DB) (salt : String)
    (now : Int) (fault : Option String) (username email password : String) (u : User)
    (hnonempty : password ≠ "")
    (hcreate : service.CreateUser B db salt now fault username email password = (.ok u, db')) :
    service.Login B db' username password = .ok u ∧ u.Username = username ∧ u.Email = email := by
  obtain ⟨hn, _, _, hdb, hname, hmail, hlive, hpw, _⟩ :=
    CreateUser_ok B db db' salt now fault username email password u hcreate
  have hgen := hpw (utf8ByteSize_pos_of_ne_empty password hnonempty)
  have hcmp := hB salt password u.Password hgen
  refine ⟨?_, hname, hmail⟩
  subst hdb
  simp [service.Login, firstUserByUsername_after_create db username u hn hname hlive, hcmp]

/-- Below what `Register` lets through: called with the empty password,
`CreateUser` succeeds, the hook leaves the password as it is, the stored
password is the empty string, and `Login` with the same credentials fails.
`Register` answers a body the binding refused with 400 and calls nothing. -/
theorem CreateUser_empty_password :
    service.CreateUser toyBcrypt emptyDB "salt" 100 none "bob" "b@x.com" ""
      = (.ok { ID := 1, Username := "bob", Password := "", Email := "b@x.com",
               CreatedAt := 100, UpdatedAt := 100, DeletedAt := none },
         { users := [{ ID := 1, Username := "bob", Password := "", Email := "b@x.com",
                       CreatedAt := 100, UpdatedAt := 100, DeletedAt := none }],
           posts := [], comments := [] }) ∧
    service.Login toyBcrypt
        (service.CreateUser toyBcrypt emptyDB "salt" 100 none "bob" "b@x.com" "").2 "bob" ""
      = .error "用户名或密码错误" ∧
    controller.Register toyBcrypt emptyDB "salt" 100 none (.error "password: required")
      = (controller.errorResponse 400 "无效的输入数据: password: required", emptyDB) := by
  decide

/-! ## C1 -/

/-- Claim C1: in a store whose primary keys are unique, for every live post `P`
and every actor `B` other than its owner, `UpdatePost` and `DeletePost` on
`P.ID` by `B` return the forbidden error and the store as it was, and the
controllers answer 403; the same for `DeleteComment` on a live comment the
actor does not own. -/
theorem C1_forbidden_for_non_owner (db : DB) (hpk : db.PrimaryKeys) :
    (∀ P ∈ db.posts, P.DeletedAt = none → ∀ B : Nat, B ≠ P.UserID →
      ∀ (now : Int) (fault : Option String) (title content : String),
        service.UpdatePost db now fault P.ID title content B
            = (.error "没有权限更新此文章", db) ∧
        service.DeletePost db now fault P.ID B = (.error "没有权限删除此文章", db) ∧
        ∀ idParam : String, controller.ParseUint32 idParam = some P.ID →
          controller.UpdatePost db now fault (some B) idParam (.ok ⟨title, content⟩)
              = (controller.errorResponse 403 "没有权限更新此文章", db) ∧
          controller.DeletePost db now fault (some B) idParam
              = (controller.errorResponse 403 "没有权限删除此文章", db)) ∧
    (∀ C ∈ db.comments, C.DeletedAt = none → ∀ B : Nat, B ≠ C.UserID →
      ∀ (now : Int) (fault : Option String),
        service.DeleteComment db now fault C.ID B = (.error "没有权限删除此评论", db) ∧
        ∀ idParam : String, controller.ParseUint32 idParam = some C.ID →
          controller.DeleteComment db now fault (some B) idParam
              = (controller.errorResponse 403 "没有权限删除此评论", db)) := by
  refine ⟨?_, ?_⟩
  · intro P hP hlive B hB now fault title content
    have hfirst := firstPost_of_mem db hpk P hP hlive
    have hne : P.UserID ≠ B := fun h => hB h.symm
    have hu : service.UpdatePost db now fault P.ID title content B
        = (.error "没有权限更新此文章", db) := by
      simp [service.UpdatePost, hfirst, hne]
    have hd : service.DeletePost db now fault P.ID B = (.error "没有权限删除此文章", db) := by
      simp [service.DeletePost, hfirst, hne]
    refine ⟨hu, hd, ?_⟩
    intro idParam hid
    constructor
    · have hs : ("没有权限更新此文章" : String) ≠ "文章不存在" := by decide
      simp [controller.UpdatePost, hid, hu, hs]
    · have hs : ("没有权限删除此文章" : String) ≠ "文章不存在" := by decide
      simp [controller.DeletePost, hid, hd, hs]
  · intro C hC hlive B hB now fault
    have hfirst := firstComment_of_mem db hpk C hC hlive
    have hne : C.UserID ≠ B := fun h => hB h.symm
    have hd : service.DeleteComment db now fault C.ID B
        = (.error "没有权限删除此评论", db) := by
      simp [service.DeleteComment, hfirst, hne]
    refine ⟨hd, ?_⟩
    intro idParam hid
    have hs : ("没有权限删除此评论" : String) ≠ "评论不存在" := by decide
    simp [controller.DeleteComment, hid, hd, hs]


/-- Claim C1 on the sample store: bob cannot update or delete the post of
alice, and alice cannot delete the comment of bob. -/
theorem C1_witness :
    service.UpdatePost sampleDB 500 none 1 "Hacked" "Rewritten by bob" 2
        = (.error "没有权限更新此文章", sampleDB) ∧
    controller.DeletePost sampleDB 500 none (some 2) "1"
        = (controller.errorResponse 403 "没有权限删除此文章", sampleDB) ∧
    controller.DeleteComment sampleDB 500 none (some 1) "1"
        = (controller.errorResponse 403 "没有权限删除此评论", sampleDB) :=
  have h := C1_forbidden_for_non_owner sampleDB (by decide)
  have hp := h.1 _ (List.mem_singleton.mpr rfl) rfl 2 (by decide) 500 none
    "Hacked" "Rewritten by bob"
  have hc := h.2 _ (List.mem_singleton.mpr rfl) rfl 1 (by decide) 500 none
  ⟨hp.1, (hp.2.2 "1" (by decide)).2, hc.2 "1" (by decide)⟩

/-! ## C2 -/

/-- Claim C2: when no live post has the key `id`, `UpdatePost` and `DeletePost`
on `id` return the not-found error, not the forbidden one, whoever the actor
is, the store is as it was and the controllers answer 404; the same for
`DeleteComment` when no live comment has the key. -/
theorem C2_not_found_before_forbidden (db : DB) (id actor : Nat) (now : Int)
    (fault : Option String) :
    ((∀ P ∈ db.posts, P.DeletedAt = none → P.ID ≠ id) →
      (∀ title content : String,
        service.UpdatePost db now fault id title content actor = (.error "文章不存在", db) ∧
        service.UpdatePost db now fault id title content actor
          ≠ (.error "没有权限更新此文章", db)) ∧
      service.DeletePost db now fault id actor = (.error "文章不存在", db) ∧
      service.DeletePost db now fault id actor ≠ (.error "没有权限删除此文章", db) ∧
      ∀ idParam : String, controller.ParseUint32 idParam = some id →
        (∀ input : controller.PostInput,
          controller.UpdatePost db now fault (some actor) idParam (.ok input)
            = (controller.errorResponse 404 "文章不存在", db)) ∧
        controller.DeletePost db now fault (some actor) idParam
          = (controller.errorResponse 404 "文章不存在", db)) ∧
    ((∀ C ∈ db.comments, C.DeletedAt = none → C.ID ≠ id) →
      service.DeleteComment db now fault id actor = (.error "评论不存在", db) ∧
      service.DeleteComment db now fault id actor ≠ (.error "没有权限删除此评论", db) ∧
      ∀ idParam : String, controller.ParseUint32 idParam = some id →
        controller.DeleteComment db now fault (some actor) idParam
          = (controller.errorResponse 404 "评论不存在", db)) := by
  refine ⟨?_, ?_⟩
  · intro h
    have hfirst := firstPost_eq_none db id h
    have hu : ∀ title content : String,
        service.UpdatePost db now fault id title content actor = (.error "文章不存在", db) := by
      intro title content
      simp [service.UpdatePost, hfirst]
    have hd : service.DeletePost db now fault id actor = (.error "文章不存在", db) := by
      simp [service.DeletePost, hfirst]
    have hs1 : ("文章不存在" : String) ≠ "没有权限更新此文章" := by decide
    have hs2 : ("文章不存在" : String) ≠ "没有权限删除此文章" := by decide
    refine ⟨fun title content => ⟨hu title content, ?_⟩, hd, ?_, ?_⟩
    · rw [hu title content]
      intro hcontra
      injection hcontra with h1 _
      injection h1 with h1
      exact hs1 h1
    · rw [hd]
      intro hcontra
      injection hcontra with h1 _
      injection h1 with h1
      exact hs2 h1
    · intro idParam hid
      constructor
      · intro input
        simp [controller.UpdatePost, hid, hu]
      · simp [controller.DeletePost, hid, hd]
  · intro h
    have hfirst := firstComment_eq_none db id h
    have hd : service.DeleteComment db now fault id actor = (.error "评论不存在", db) := by
      simp [service.DeleteComment, hfirst]
    have hs : ("评论不存在" : String) ≠ "没有权限删除此评论" := by decide
    refine ⟨hd, ?_, ?_⟩
    · rw [hd]
      intro hcontra
      injection hcontra with h1 _
      injection h1 with h1
      exact hs h1
    · intro idParam hid
      simp [controller.DeleteComment, hid, hd]

/-- Claim C2 on the sample store, where no post and no comment has the key 9. -/
theorem C2_witness :
    service.DeletePost sampleDB 500 none 9 1 = (.error "文章不存在", sampleDB) ∧
    controller.UpdatePost sampleDB 500 none (some 1) "9" (.ok ⟨"Title", "Some content"⟩)
      = (controller.errorResponse 404 "文章不存在", sampleDB) ∧
    controller.DeleteComment sampleDB 500 none (some 2) "9"
      = (controller.errorResponse 404 "评论不存在", sampleDB) :=
  have h := C2_not_found_before_forbidden sampleDB 9 1 500 none
  have h' := C2_not_found_before_forbidden sampleDB 9 2 500 none
  have hp := h.1 (by decide)
  have hc := h'.2 (by decide)
  ⟨hp.2.1, (hp.2.2.2 "9" (by decide)).1 ⟨"Title", "Some content"⟩, hc.2.2 "9" (by decide)⟩

/-! ## C3 -/

/-- Claim C3: a login with a username no live user has, and a login with the
username of a live user and a password bcrypt rejects, give the same result:
the error "用户名或密码错误" and no user, answered by the controller with the
same 401 response. -/
theorem C3_login_failures_indistinguishable (B : Bcrypt) (db : DB)
    (unknown password1 known password2 : String)
    (hunknown : ∀ U ∈ db.users, U.DeletedAt = none → U.Username ≠ unknown)
    (hknown : ∃ U ∈ db.users, U.DeletedAt = none ∧ U.Username = known)
    (hmismatch : ∀ U ∈ db.users, U.DeletedAt = none → U.Username = known →
      B.CompareHashAndPassword U.Password password2 = false) :
    service.Login B db unknown password1 = .error "用户名或密码错误" ∧
    service.Login B db known password2 = .error "用户名或密码错误" ∧
    service.Login B db unknown password1 = service.Login B db known password2 ∧
    ∀ (J : jwt.Codec) (loop : List Char → Except String Nat) (cfg : Config) (t1 t2 t3 : Int),
      controller.Login B J loop db cfg t1 t2 t3 (.ok ⟨unknown, password1⟩)
        = controller.errorResponse 401 "用户名或密码错误" ∧
      controller.Login B J loop db cfg t1 t2 t3 (.ok ⟨known, password2⟩)
        = controller.errorResponse 401 "用户名或密码错误" := by
  have h1 : service.Login B db unknown password1 = .error "用户名或密码错误" := by
    simp [service.Login, firstUserByUsername_eq_none db unknown hunknown]
  have h2 : service.Login B db known password2 = .error "用户名或密码错误" := by
    obtain ⟨U, hU, hlive, hname⟩ := hknown
    obtain ⟨V, hV⟩ := firstUserByUsername_isSome db known U hU hlive hname
    obtain ⟨hVmem, hVlive, hVname⟩ := firstUserByUsername_some db known V hV
    simp [service.Login, hV, hmismatch V hVmem hVlive hVname]
  refine ⟨h1, h2, by rw [h1, h2], ?_⟩
  intro J loop cfg t1 t2 t3
  simp [controller.Login, h1, h2]

/-- Claim C3 on the sample store: the unknown user mallory and a wrong password
for alice. -/
theorem C3_witness :
    service.Login toyBcrypt sampleDB "mallory" "secret1"
      = service.Login toyBcrypt sampleDB "alice" "wrong" ∧
    service.Login toyBcrypt sampleDB "alice" "wrong" = .error "用户名或密码错误" :=
  have h := C3_login_failures_indistinguishable toyBcrypt sampleDB "mallory" "secret1" "alice"
    "wrong" (by decide) (by decide) (by decide)
  ⟨h.2.2.1, h.2.1⟩

/-! ## C4 -/

/-- Claim C4 fails for a TTL of zero: with `JWT_EXPIRATION` set to `0` the
token is issued, and the middleware rejects it at the very instant of
issuance, because its expiry is not after that instant. -/
theorem C4_counterexample :
    (oneTokenCodec (sampleClaims 7 1700000000500000000 0) "default_secret" "tok").Sound ∧
    ParseDuration sampleLoop (sampleConfig "0").JWTExpiry = .ok 0 ∧
    utils.GenerateToken (oneTokenCodec (sampleClaims 7 1700000000500000000 0) "default_secret" "tok")
        sampleLoop 7 (sampleConfig "0") 1700000000500000000 1700000000500000000
        1700000000500000000
      = .ok "tok" ∧
    middleware.AuthMiddleware
        (oneTokenCodec (sampleClaims 7 1700000000500000000 0) "default_secret" "tok")
        (sampleConfig "0") 1700000000500000000 "Bearer tok"
      = .abort 401 "无效的认证令牌" :=
  ⟨oneTokenCodec_sound _ _ _, by decide, by decide, by decide⟩

/-- Claim C4, amended: with a sound codec, a token issued by `GenerateToken`
for `userID` is accepted by the middleware under the same secret, with
`userID` as the identity, at every time `tv` not before the last clock
reading of the issuance and at least one second before `t1 + ttl`; in
particular at the instant of issuance when the TTL is one second or more. -/
theorem C4_issue_then_verify (J : jwt.Codec) (hJ : J.Sound)
    (loop : List Char → Except String Nat) (userID : Nat) (cfg : Config) (t1 t2 t3 tv : Int)
    (ttl : Int) (token : String)
    (hparse : ParseDuration loop cfg.JWTExpiry = .ok ttl)
    (hclock : t3 ≤ tv) (hlife : tv + 1000000000 ≤ t1 + ttl)
    (hissue : utils.GenerateToken J loop userID cfg t1 t2 t3 = .ok token) :
    middleware.AuthMiddleware J cfg tv ("Bearer " ++ token) = .next userID := by
  simp only [utils.GenerateToken, hparse] at hissue
  have hw : ∀ t : Int, jwt.wholeSecond (some (jwt.NewNumericDate t)) := by
    intro t x hx
    simp only [Option.some.injEq] at hx
    subst hx
    simp only [jwt.NewNumericDate, jwt.TimePrecision]
    omega
  obtain ⟨hdec, hver⟩ := hJ _ _ _ (hw _) (hw _) (hw _) hissue
  have hv : jwt.validate tv
      { UserID := userID, ExpiresAt := some (jwt.NewNumericDate (t1 + ttl)),
        IssuedAt := some (jwt.NewNumericDate t2), NotBefore := some (jwt.NewNumericDate t3),
        Issuer := "blog-backend" } = true := by
    simp only [jwt.validate, jwt.NewNumericDate, jwt.TimePrecision, Bool.and_eq_true,
      decide_eq_true_eq]
    constructor <;> omega
  simp [middleware.AuthMiddleware, bearer_ne_empty, SplitN2_bearer, jwt.ParseWithClaims, hdec,
    hver, hv]


/-- Claim C4, amended, for a TTL of one second, verified at the instant of
issuance. -/
theorem C4_witness :
    middleware.AuthMiddleware
        (oneTokenCodec (sampleClaims 7 1700000000500000000 1000000000) "default_secret" "tok")
        (sampleConfig "1s") 1700000000500000000 ("Bearer " ++ "tok")
      = .next 7 :=
  C4_issue_then_verify
    (oneTokenCodec (sampleClaims 7 1700000000500000000 1000000000) "default_secret" "tok")
    (oneTokenCodec_sound _ _ _) sampleLoop 7 (sampleConfig "1s")
    1700000000500000000 1700000000500000000 1700000000500000000 1700000000500000000
    1000000000 "tok" (by decide) (by decide) (by decide) (by decide)

/-! ## C5 -/

/-- Claim C5: a bearer token whose claims carry an expiry before `now` is
rejected by the middleware with 401 and never reaches the handler, whatever
the codec says about its signature. -/
theorem C5_expired_token_rejected (J : jwt.Codec) (cfg : Config) (now : Int)
    (tokenString : String) (claims : Claims) (exp : Int)
    (hdecode : J.decode tokenString = some claims) (hexp : claims.ExpiresAt = some exp)
    (hpast : exp < now) :
    middleware.AuthMiddleware J cfg now ("Bearer " ++ tokenString)
      = .abort 401 "无效的认证令牌" ∧
    ∀ userID, middleware.AuthMiddleware J cfg now ("Bearer " ++ tokenString) ≠ .next userID := by
  have hv : jwt.validate now claims = false := by
    have : ¬ now < exp := by omega
    simp [jwt.validate, hexp, this]
  have hp : jwt.ParseWithClaims J tokenString cfg.JWTSecret now = none := by
    simp [jwt.ParseWithClaims, hdecode, hv]
  have h : middleware.AuthMiddleware J cfg now ("Bearer " ++ tokenString)
      = .abort 401 "无效的认证令牌" := by
    simp [middleware.AuthMiddleware, bearer_ne_empty, SplitN2_bearer, hp]
  exact ⟨h, fun userID => by rw [h]; exact fun hc => nomatch hc⟩


/-- Claim C5 for a token that expired eight seconds ago, once with a signature
that does not verify under the configured secret and once with one that
does. -/
theorem C5_witness :
    middleware.AuthMiddleware
        (oneTokenCodec (sampleClaims 7 1700000000500000000 1000000000) "other_secret" "tok")
        (sampleConfig "720h") 1700000009000000000 ("Bearer " ++ "tok")
      = .abort 401 "无效的认证令牌" ∧
    middleware.AuthMiddleware
        (oneTokenCodec (sampleClaims 7 1700000000500000000 1000000000) "default_secret" "tok")
        (sampleConfig "720h") 1700000009000000000 ("Bearer " ++ "tok")
      = .abort 401 "无效的认证令牌" :=
  ⟨(C5_expired_token_rejected
      (oneTokenCodec (sampleClaims 7 1700000000500000000 1000000000) "other_secret" "tok")
      (sampleConfig "720h") 1700000009000000000 "tok"
      (sampleClaims 7 1700000000500000000 1000000000) 1700000001000000000
      (by decide) (by decide) (by decide)).1,
   (C5_expired_token_rejected
      (oneTokenCodec (sampleClaims 7 1700000000500000000 1000000000) "default_secret" "tok")
      (sampleConfig "720h") 1700000009000000000 "tok"
      (sampleClaims 7 1700000000500000000 1000000000) 1700000001000000000
      (by decide) (by decide) (by decide)).1⟩

/-! ## C6 -/

/-- Claim C6: for every registration as the program makes it, a body that
passed the binding of `Register` (so a password of six characters or more),
if `CreateUser` succeeds then `GetUserByUsername` afterwards returns the
created user, whose stored password is the bcrypt hash the `BeforeSave` hook
computed from the plaintext and is not the plaintext: bcrypt accepts the hash
for the plaintext and accepts no text as a hash of itself.  `Register`
answers 201 and leaves the store with that user. -/
theorem C6_stored_password_is_hash (B : Bcrypt) (hB : B.Sound) (hH : B.Hiding) (db db' : DB)
    (salt : String) (now : Int) (fault : Option String) (input : controller.RegisterInput)
    (hbound : input.Bound) (u : User)
    (hcreate : service.CreateUser B db salt now fault input.Username input.Email
      input.Password = (.ok u, db')) :
    service.GetUserByUsername db' input.Username = .ok u ∧
    B.GenerateFromPassword salt input.Password = .ok u.Password ∧
    B.CompareHashAndPassword u.Password input.Password = true ∧
    u.Password ≠ input.Password ∧
    (controller.Register B db salt now fault (.ok input)).1.status = 201 ∧
    (controller.Register B db salt now fault (.ok input)).2 = db' := by
  obtain ⟨hget, hgen⟩ := CreateUser_then_GetUserByUsername B db db' salt now fault
    input.Username input.Email input.Password u (ne_empty_of_bound input hbound) hcreate
  have hcmp := hB salt input.Password u.Password hgen
  refine ⟨hget, hgen, hcmp, ?_, ?_, ?_⟩
  · intro heq
    rw [heq, hH input.Password] at hcmp
    exact Bool.false_ne_true hcmp
  · simp [controller.Register, hcreate]
  · simp [controller.Register, hcreate]

/-- Claim C6 for the registration of bob on the empty store. -/
theorem C6_witness :
    service.GetUserByUsername
        (service.CreateUser toyBcrypt emptyDB "salt" 100 none "bob" "b@x.com" "hunter22").2 "bob"
      = .ok { ID := 1, Username := "bob", Password := "$2a$10$salt$hunter22",
              Email := "b@x.com", CreatedAt := 100, UpdatedAt := 100, DeletedAt := none } ∧
    ("$2a$10$salt$hunter22" : String) ≠ "hunter22" :=
  have h := C6_stored_password_is_hash toyBcrypt toyBcrypt_sound toyBcrypt_hiding emptyDB
    (service.CreateUser toyBcrypt emptyDB "salt" 100 none "bob" "b@x.com" "hunter22").2
    "salt" 100 none ⟨"bob", "b@x.com", "hunter22"⟩ (by decide)
    { ID := 1, Username := "bob", Password := "$2a$10$salt$hunter22",
      Email := "b@x.com", CreatedAt := 100, UpdatedAt := 100, DeletedAt := none }
    (by decide)
  ⟨h.1, h.2.2.2.1⟩

/-! ## C7 -/

/-- Claim C7: for every registration as the program makes it, a body that
passed the binding of `Register`, if `CreateUser` succeeds then `Login` with
the same username and password succeeds and returns the user that was
created, the same row with its `ID`, carrying the given username and email;
bcrypt accepts the hash it made for the password. -/
theorem C7_login_after_registration (B : Bcrypt) (hB : B.Sound) (db db' : DB) (salt : String)
    (now : Int) (fault : Option String) (input : controller.RegisterInput)
    (hbound : input.Bound) (u : User)
    (hcreate : service.CreateUser B db salt now fault input.Username input.Email
      input.Password = (.ok u, db')) :
    service.Login B db' input.Username input.Password = .ok u ∧
    u.Username = input.Username ∧ u.Email = input.Email ∧
    u ∈ db'.users ∧ u.DeletedAt = none := by
  obtain ⟨hlogin, hname, hmail⟩ := CreateUser_then_Login B hB db db' salt now fault
    input.Username input.Email input.Password u (ne_empty_of_bound input hbound) hcreate
  obtain ⟨_, _, _, hdb, _, _, hlive, _, _⟩ :=
    CreateUser_ok B db db' salt now fault input.Username input.Email input.Password u hcreate
  refine ⟨hlogin, hname, hmail, ?_, hlive⟩
  rw [hdb]
  simp

/-- Claim C7 for the registration of carol on the sample store. -/
theorem C7_witness :
    service.Login toyBcrypt
        (service.CreateUser toyBcrypt sampleDB "nacl" 500 none "carol" "c@x.com" "secret3").2
        "carol" "secret3"
      = .ok { ID := 3, Username := "carol", Password := "$2a$10$nacl$secret3",
              Email := "c@x.com", CreatedAt := 500, UpdatedAt := 500, DeletedAt := none } :=
  (C7_login_after_registration toyBcrypt toyBcrypt_sound sampleDB
    (service.CreateUser toyBcrypt sampleDB "nacl" 500 none "carol" "c@x.com" "secret3").2
    "nacl" 500 none ⟨"carol", "c@x.com", "secret3"⟩ (by decide)
    { ID := 3, Username := "carol", Password := "$2a$10$nacl$secret3",
      Email := "c@x.com", CreatedAt := 500, UpdatedAt := 500, DeletedAt := none }
    (by decide)).1

/-! ## C8 -/

/-- Claim C8: `CreateUser` with the username of a live user returns
"用户名已存在"; with a username no live user has and the email of a live user
it returns "邮箱已存在"; in both cases the store is as it was and `Register`
answers 400 with that message. -/
theorem C8_duplicate_registration_rejected (B : Bcrypt) (db : DB) (salt : String) (now : Int)
    (fault : Option String) (username email password : String) :
    ((∃ U ∈ db.users, U.DeletedAt = none ∧ U.Username = username) →
      service.CreateUser B db salt now fault username email password
        = (.error "用户名已存在", db) ∧
      controller.Register B db salt now fault (.ok ⟨username, email, password⟩)
        = (controller.errorResponse 400 "用户名已存在", db)) ∧
    ((∀ U ∈ db.users, U.DeletedAt = none → U.Username ≠ username) →
      (∃ U ∈ db.users, U.DeletedAt = none ∧ U.Email = email) →
      service.CreateUser B db salt now fault username email password
        = (.error "邮箱已存在", db) ∧
      controller.Register B db salt now fault (.ok ⟨username, email, password⟩)
        = (controller.errorResponse 400 "邮箱已存在", db)) := by
  refine ⟨?_, ?_⟩
  · rintro ⟨U, hU, hlive, hname⟩
    obtain ⟨V, hV⟩ := firstUserByUsername_isSome db username U hU hlive hname
    have hc : service.CreateUser B db salt now fault username email password
        = (.error "用户名已存在", db) := by
      simp [service.CreateUser, hV]
    exact ⟨hc, by simp [controller.Register, hc]⟩
  · rintro hfresh ⟨U, hU, hlive, hmail⟩
    obtain ⟨V, hV⟩ := firstUserByEmail_isSome db email U hU hlive hmail
    have hc : service.CreateUser B db salt now fault username email password
        = (.error "邮箱已存在", db) := by
      simp [service.CreateUser, firstUserByUsername_eq_none db username hfresh, hV]
    exact ⟨hc, by simp [controller.Register, hc]⟩

/-- Claim C8 on the sample store: the username alice, and the email of alice
under a new username. -/
theorem C8_witness :
    controller.Register toyBcrypt sampleDB "nacl" 500 none (.ok ⟨"alice", "new@x.com", "secret9"⟩)
      = (controller.errorResponse 400 "用户名已存在", sampleDB) ∧
    service.CreateUser toyBcrypt sampleDB "nacl" 500 none "carol" "a@x.com" "secret9"
      = (.error "邮箱已存在", sampleDB) :=
  ⟨((C8_duplicate_registration_rejected toyBcrypt sampleDB "nacl" 500 none "alice" "new@x.com"
      "secret9").1 (by decide)).2,
   ((C8_duplicate_registration_rejected toyBcrypt sampleDB "nacl" 500 none "carol" "a@x.com"
      "secret9").2 (by decide) (by decide)).1⟩

/-! ## C9 -/

theorem UpdatePost_users (db : DB) (now : Int) (fault : Option String) (id : Nat)
    (title content : String) (userID : Nat) :
    (service.UpdatePost db now fault id title content userID).2.users = db.users := by
  unfold service.UpdatePost
  cases db.firstPost id with
  | none => rfl
  | some post =>
    by_cases h : post.UserID ≠ userID
    · simp [h]
    · cases fault <;> simp [h, DB.savePost]

theorem DeletePost_users (db : DB) (now : Int) (fault : Option String) (id userID : Nat) :
    (service.DeletePost db now fault id userID).2.users = db.users := by
  unfold service.DeletePost
  cases db.firstPost id with
  | none => rfl
  | some post =>
    by_cases h : post.UserID ≠ userID
    · simp [h]
    · cases fault <;> simp [h, DB.deletePost]

theorem CreatePost_users (db : DB) (now : Int) (fault : Option String)
    (title content : String) (userID : Nat) :
    (service.CreatePost db now fault title content userID).2.users = db.users := by
  unfold service.CreatePost
  cases fault <;> simp [DB.createPost]

theorem CreateComment_users (db : DB) (now : Int) (fault : Option String) (content : String)
    (userID postID : Nat) :
    (service.CreateComment db now fault content userID postID).2.users = db.users := by
  unfold service.CreateComment
  cases db.firstPost postID with
  | none => rfl
  | some post => cases fault <;> simp [DB.createComment]

theorem DeleteComment_users (db : DB) (now : Int) (fault : Option String) (id userID : Nat) :
    (service.DeleteComment db now fault id userID).2.users = db.users := by
  unfold service.DeleteComment
  cases db.firstComment id with
  | none => rfl
  | some comment =>
    by_cases h : comment.UserID ≠ userID
    · simp [h]
    · cases fault <;> simp [h, DB.deleteComment]

theorem UniqueUsers_of_users_eq (db db' : DB) (h : db'.users = db.users)
    (hu : db.UniqueUsers) : db'.UniqueUsers := by
  unfold DB.UniqueUsers at hu ⊢
  rw [h]
  exact hu

theorem CreateUser_error_store (B : Bcrypt) (db : DB) (salt : String) (now : Int)
    (fault : Option String) (username email password e : String)
    (h : (service.CreateUser B db salt now fault username email password).1 = .error e) :
    (service.CreateUser B db salt now fault username email password).2 = db := by
  revert h
  unfold service.CreateUser
  cases db.firstUserByUsername username with
  | some x => intro _; rfl
  | none =>
    cases db.firstUserByEmail email with
    | some x => intro _; rfl
    | none =>
      simp only
      cases db.createUser B salt now fault
          { ID := 0, Username := username, Email := email, Password := password,
            CreatedAt := 0, UpdatedAt := 0, DeletedAt := none } with
      | error e' => intro _; rfl
      | ok r => intro h; simp at h

theorem CreateUser_unique (B : Bcrypt) (db : DB) (salt : String) (now : Int)
    (fault : Option String) (username email password : String) (hu : db.UniqueUsers) :
    (service.CreateUser B db salt now fault username email password).2.UniqueUsers := by
  cases hr : (service.CreateUser B db salt now fault username email password).1 with
  | error e =>
    rw [CreateUser_error_store B db salt now fault username email password e hr]
    exact hu
  | ok u =>
    have hpair : service.CreateUser B db salt now fault username email password
        = (.ok u, (service.CreateUser B db salt now fault username email password).2) := by
      rw [← hr]
    obtain ⟨hn, he, _, hdb, hname, hmail, hlive, _, _⟩ :=
      CreateUser_ok B db _ salt now fault username email password u hpair
    rw [hdb]
    unfold DB.firstUserByUsername at hn
    unfold DB.firstUserByEmail at he
    rw [firstByID_eq_none, List.filter_eq_nil_iff] at hn he
    unfold DB.UniqueUsers at hu ⊢
    simp only [List.filter_append, List.map_append]
    have hfu : List.filter (fun u : User => u.DeletedAt.isNone) [u] = [u] := by
      simp [List.filter_cons, hlive]
    rw [hfu]
    simp only [List.map_cons, List.map_nil]
    constructor
    · rw [List.nodup_append]
      refine ⟨hu.1, List.nodup_singleton _, ?_⟩
      rw [List.disjoint_singleton]
      intro hmem
      obtain ⟨x, hx, hxn⟩ := List.mem_map.mp hmem
      obtain ⟨hxm, hxl⟩ := List.mem_filter.mp hx
      have := hn x hxm
      simp [hxl, hxn, hname] at this
    · rw [List.nodup_append]
      refine ⟨hu.2, List.nodup_singleton _, ?_⟩
      rw [List.disjoint_singleton]
      intro hmem
      obtain ⟨x, hx, hxn⟩ := List.mem_map.mp hmem
      obtain ⟨hxm, hxl⟩ := List.mem_filter.mp hx
      have := he x hxm
      simp [hxl, hxn, hmail] at this

theorem step_unique (B : Bcrypt) (db : DB) (op : Op) (hu : db.UniqueUsers) :
    (step B db op).UniqueUsers := by
  cases op with
  | CreateUser salt now fault username email password =>
    exact CreateUser_unique B db salt now fault username email password hu
  | Login _ _ => exact hu
  | GetUserByID _ => exact hu
  | GetUserByUsername _ => exact hu
  | CreatePost now fault title content userID =>
    exact UniqueUsers_of_users_eq db _ (CreatePost_users db now fault title content userID) hu
  | UpdatePost now fault id title content userID =>
    exact UniqueUsers_of_users_eq db _ (UpdatePost_users db now fault id title content userID) hu
  | DeletePost now fault id userID =>
    exact UniqueUsers_of_users_eq db _ (DeletePost_users db now fault id userID) hu
  | CreateComment now fault content userID postID =>
    exact UniqueUsers_of_users_eq db _
      (CreateComment_users db now fault content userID postID) hu
  | GetCommentByID _ => exact hu
  | DeleteComment now fault id userID =>
    exact UniqueUsers_of_users_eq db _ (DeleteComment_users db now fault id userID) hu
  | GetPostByID _ => exact hu
  | ListPosts _ _ => exact hu
  | GetUserPosts _ _ _ => exact hu
  | GetPostComments _ _ _ => exact hu

/-- Claim C9: if no two live users share a username and no two share an
email, the same holds after any sequence of service calls, whatever the
storage engine answers to the writes. -/
theorem C9_uniqueness_invariant (B : Bcrypt) (db : DB) (ops : List Op)
    (hunique : db.UniqueUsers) : (run B db ops).UniqueUsers := by
  induction ops generalizing db with
  | nil => exact hunique
  | cons op ops ih =>
    simp only [run, List.foldl_cons]
    exact ih (step B db op) (step_unique B db op hunique)

/-- Claim C9 for a sequence on the sample store with two rejected and one
accepted registration. -/
theorem C9_witness :
    (run toyBcrypt sampleDB
      [.CreateUser "nacl" 500 none "carol" "c@x.com" "secret3",
       .CreateUser "nacl" 510 none "alice" "alice2@x.com" "secret4",
       .CreateUser "nacl" 520 none "dave" "a@x.com" "secret5",
       .Login "carol" "secret3",
       .CreatePost 530 none "Second" "A post by carol" 3,
       .ListPosts 1 10,
       .DeletePost 540 none 1 1]).UniqueUsers :=
  C9_uniqueness_invariant toyBcrypt sampleDB _ (by decide)

/-! ## C10 -/

theorem GenerateToken_parse_error (J : jwt.Codec) (loop : List Char → Except String Nat)
    (userID : Nat) (cfg : Config) (t1 t2 t3 : Int) (e : String)
    (h : ParseDuration loop cfg.JWTExpiry = .error e) :
    utils.GenerateToken J loop userID cfg t1 t2 t3 = .error e := by
  simp only [utils.GenerateToken]
  rw [h]

/-- Claim C10 fails for `JWT_EXPIRATION=abc`: `LoadConfig` returns the
configuration without an error, and the invalid TTL makes `GenerateToken`
fail at run time, so that a login with valid credentials is answered 500. -/
theorem C10_counterexample :
    LoadConfig (sampleEnv "abc") = .ok (sampleConfig "abc") ∧
    ParseDuration sampleLoop (sampleConfig "abc").JWTExpiry
      = .error "time: invalid duration \"abc\"" ∧
    utils.GenerateToken (oneTokenCodec (sampleClaims 1 0 0) "default_secret" "tok") sampleLoop
        1 (sampleConfig "abc") 0 0 0
      = .error "time: invalid duration \"abc\"" ∧
    controller.Login toyBcrypt (oneTokenCodec (sampleClaims 1 0 0) "default_secret" "tok")
        sampleLoop sampleDB (sampleConfig "abc") 0 0 0 (.ok ⟨"alice", "secret1"⟩)
      = controller.errorResponse 500 "生成令牌失败" := by
  decide

/-- Claim C10, amended: `LoadConfig` never returns an error and keeps the TTL
string as it finds it; when `time.ParseDuration` rejects that string, every
`GenerateToken` fails with the parse error and every login with valid
credentials is answered 500 "生成令牌失败". -/
theorem C10_invalid_ttl_fails_at_run_time (env : String → String) :
    ∃ cfg : Config, LoadConfig env = .ok cfg ∧
      cfg.JWTExpiry = getEnv env "JWT_EXPIRATION" "720h" ∧
      ∀ (loop : List Char → Except String Nat) (e : String),
        ParseDuration loop cfg.JWTExpiry = .error e →
        (∀ (J : jwt.Codec) (userID : Nat) (t1 t2 t3 : Int),
          utils.GenerateToken J loop userID cfg t1 t2 t3 = .error e) ∧
        ∀ (B : Bcrypt) (J : jwt.Codec) (db : DB) (t1 t2 t3 : Int)
          (input : controller.LoginInput) (user : User),
          service.Login B db input.Username input.Password = .ok user →
          controller.Login B J loop db cfg t1 t2 t3 (.ok input)
            = controller.errorResponse 500 "生成令牌失败" := by
  refine ⟨_, rfl, rfl, ?_⟩
  intro loop e hparse
  refine ⟨fun J userID t1 t2 t3 => GenerateToken_parse_error J loop userID _ t1 t2 t3 e hparse, ?_⟩
  intro B J db t1 t2 t3 input user hlogin
  simp only [controller.Login, hlogin,
    GenerateToken_parse_error J loop user.ID _ t1 t2 t3 e hparse]

/-- Claim C10, amended, for `JWT_EXPIRATION=abc` and the login of alice. -/
theorem C10_witness :
    ∃ cfg : Config, LoadConfig (sampleEnv "abc") = .ok cfg ∧
      controller.Login toyBcrypt (oneTokenCodec (sampleClaims 1 0 0) "default_secret" "tok")
          sampleLoop sampleDB cfg 0 0 0 (.ok ⟨"alice", "secret1"⟩)
        = controller.errorResponse 500 "生成令牌失败" :=
  match C10_invalid_ttl_fails_at_run_time (sampleEnv "abc") with
  | ⟨cfg, hload, hexp, hrun⟩ =>
    ⟨cfg, hload,
      (hrun sampleLoop "time: invalid duration \"abc\"" (by rw [hexp]; decide)).2 toyBcrypt _
        sampleDB 0 0 0 ⟨"alice", "secret1"⟩
        { ID := 1, Username := "alice", Password := "$2a$10$salt$secret1", Email := "a@x.com",
          CreatedAt := 100, UpdatedAt := 100, DeletedAt := none } (by decide)⟩

/-! ## Lemmas on pagination -/

theorem pageSizeParam_range (defaultText : String) (defaultSize : Int) (query : Option String)
    (hd : 1 ≤ defaultSize ∧ defaultSize ≤ 100) :
    1 ≤ controller.pageSizeParam defaultText defaultSize query ∧
    controller.pageSizeParam defaultText defaultSize query ≤ 100 := by
  unfold controller.pageSizeParam
  cases Atoi (query.getD defaultText) with
  | none => exact hd
  | some n =>
    by_cases h : n < 1 ∨ n > 100
    · simp only [h, if_true]; exact hd
    · simp only [h, if_false]; omega

theorem pageParam_pos (query : Option String) : 1 ≤ controller.pageParam query := by
  unfold controller.pageParam
  cases Atoi (query.getD "1") with
  | none => exact le_refl 1
  | some n =>
    by_cases h : n < 1
    · simp [h]
    · simp only [h, if_false]; omega

theorem wrap64_of_range (x : Int) (h : -(2 ^ 63) ≤ x ∧ x < 2 ^ 63) : wrap64 x = x := by
  unfold wrap64
  omega

/-- Reported page count when nothing overflows: the ceiling of
`total / pageSize`. -/
theorem pages_eq_ceil (total pageSize : Int) (ht : 0 ≤ total) (hfit : total + 100 < 2 ^ 63)
    (hp : 1 ≤ pageSize ∧ pageSize ≤ 100) :
    controller.pages total pageSize = (total + pageSize - 1) / pageSize ∧
    total ≤ controller.pages total pageSize * pageSize ∧
    controller.pages total pageSize * pageSize < total + pageSize := by
  have h1 : wrap64 (total + pageSize) = total + pageSize := wrap64_of_range _ (by omega)
  have h2 : wrap64 (total + pageSize - 1) = total + pageSize - 1 := wrap64_of_range _ (by omega)
  have hq : controller.pages total pageSize = (total + pageSize - 1) / pageSize := by
    unfold controller.pages
    rw [h1, h2]
    exact Int.tdiv_eq_ediv (by omega : 0 ≤ total + pageSize - 1) (by omega : 0 ≤ pageSize)
  refine ⟨hq, ?_, ?_⟩
  · rw [hq]
    have := Int.emod_add_ediv (total + pageSize - 1) pageSize
    have hm := Int.emod_lt_of_pos (total + pageSize - 1) (by omega : 0 < pageSize)
    have hm0 := Int.emod_nonneg (total + pageSize - 1) (by omega : pageSize ≠ 0)
    nlinarith
  · rw [hq]
    have := Int.emod_add_ediv (total + pageSize - 1) pageSize
    have hm0 := Int.emod_nonneg (total + pageSize - 1) (by omega : pageSize ≠ 0)
    nlinarith

theorem pages_zero (pageSize : Int) (hp : 1 ≤ pageSize ∧ pageSize ≤ 100) :
    controller.pages 0 pageSize = 0 := by
  obtain ⟨_, h1, h2⟩ := pages_eq_ceil 0 pageSize (le_refl 0) (by norm_num) hp
  nlinarith

/-- Offset when the page number is small enough for the product to fit. -/
theorem offset_nonneg (page pageSize : Int) (hpage : 1 ≤ page) (hfit : page < 2 ^ 56)
    (hp : 1 ≤ pageSize ∧ pageSize ≤ 100) :
    service.offset page pageSize = (page - 1) * pageSize ∧ 0 ≤ service.offset page pageSize := by
  have h1 : wrap64 (page - 1) = page - 1 := wrap64_of_range _ (by omega)
  have hb : (page - 1) * pageSize < 2 ^ 63 := by nlinarith
  have hb0 : 0 ≤ (page - 1) * pageSize := by nlinarith
  have h2 : wrap64 ((page - 1) * pageSize) = (page - 1) * pageSize :=
    wrap64_of_range _ ⟨by omega, hb⟩
  unfold service.offset
  rw [h1, h2]
  exact ⟨rfl, hb0⟩

theorem pageSizeParam_spec (defaultText : String) (defaultSize : Int) (query : Option String) :
    (∀ n : Int, Atoi (query.getD defaultText) = some n → 1 ≤ n → n ≤ 100 →
      controller.pageSizeParam defaultText defaultSize query = n) ∧
    ((∀ n : Int, Atoi (query.getD defaultText) = some n → n < 1 ∨ 100 < n) →
      controller.pageSizeParam defaultText defaultSize query = defaultSize) := by
  unfold controller.pageSizeParam
  constructor
  · intro n hn h1 h100
    have : ¬ (n < 1 ∨ n > 100) := by omega
    simp [hn, this]
  · intro h
    cases hn : Atoi (query.getD defaultText) with
    | none => rfl
    | some n =>
      have : n < 1 ∨ n > 100 := by
        rcases h n hn with h1 | h2
        · exact Or.inl h1
        · exact Or.inr h2
      simp [this]

theorem pageParam_spec (query : Option String) :
    (∀ n : Int, Atoi (query.getD "1") = some n → 1 ≤ n → controller.pageParam query = n) ∧
    ((∀ n : Int, Atoi (query.getD "1") = some n → n < 1) → controller.pageParam query = 1) := by
  unfold controller.pageParam
  constructor
  · intro n hn h1
    have : ¬ n < 1 := by omega
    simp [hn, this]
  · intro h
    cases hn : Atoi (query.getD "1") with
    | none => rfl
    | some n => simp [h n hn]

/-! ## C11 -/

/-- Claim C11 fails for `page_size=1000`: the value parses, and the page size
the handlers use is the default of the resource, 10 or 20, not the maximum
100; the response is the one of a request without `page_size`. -/
theorem C11_counterexample :
    Atoi "1000" = some 1000 ∧
    controller.pageSizeParam "10" 10 (some "1000") = 10 ∧
    controller.pageSizeParam "20" 20 (some "1000") = 20 ∧
    controller.ListPosts sampleDB none (some "1000") = controller.ListPosts sampleDB none none := by
  decide

/-- Claim C11, amended: the page size a list handler uses is the requested
value when that parses to a number from 1 to 100, and the default of the
resource (10 for posts, 20 for comments) in every other case, a value above
100 included, so it always lies in [1,100]; the page is the requested value
when that parses to a number of at least 1 and 1 otherwise; and no value of
`page_size` makes a list request fail: `ListPosts` and, for a well-formed
user id, `GetUserPosts` answer 200, and the status of `GetPostComments` does
not depend on `page_size`. -/
theorem C11_page_size_defaults_outside_range (db : DB) (pageQuery pageSizeQuery : Option String) :
    (1 ≤ controller.pageSizeParam "10" 10 pageSizeQuery ∧
      controller.pageSizeParam "10" 10 pageSizeQuery ≤ 100 ∧
      (∀ n : Int, Atoi (pageSizeQuery.getD "10") = some n → 1 ≤ n → n ≤ 100 →
        controller.pageSizeParam "10" 10 pageSizeQuery = n) ∧
      ((∀ n : Int, Atoi (pageSizeQuery.getD "10") = some n → n < 1 ∨ 100 < n) →
        controller.pageSizeParam "10" 10 pageSizeQuery = 10)) ∧
    (1 ≤ controller.pageSizeParam "20" 20 pageSizeQuery ∧
      controller.pageSizeParam "20" 20 pageSizeQuery ≤ 100 ∧
      (∀ n : Int, Atoi (pageSizeQuery.getD "20") = some n → 1 ≤ n → n ≤ 100 →
        controller.pageSizeParam "20" 20 pageSizeQuery = n) ∧
      ((∀ n : Int, Atoi (pageSizeQuery.getD "20") = some n → n < 1 ∨ 100 < n) →
        controller.pageSizeParam "20" 20 pageSizeQuery = 20)) ∧
    ((∀ n : Int, Atoi (pageQuery.getD "1") = some n → 1 ≤ n →
        controller.pageParam pageQuery = n) ∧
      ((∀ n : Int, Atoi (pageQuery.getD "1") = some n → n < 1) →
        controller.pageParam pageQuery = 1)) ∧
    (controller.ListPosts db pageQuery pageSizeQuery).status = 200 ∧
    (∀ (userIDParam : String) (userID : Nat), controller.ParseUint32 userIDParam = some userID →
      (controller.GetUserPosts db userIDParam pageQuery pageSizeQuery).status = 200) ∧
    (∀ (postIDParam : String) (other : Option String),
      (controller.GetPostComments db postIDParam pageQuery pageSizeQuery).status
        = (controller.GetPostComments db postIDParam pageQuery other).status) := by
  have r10 := pageSizeParam_range "10" 10 pageSizeQuery (by decide)
  have s10 := pageSizeParam_spec "10" 10 pageSizeQuery
  have r20 := pageSizeParam_range "20" 20 pageSizeQuery (by decide)
  have s20 := pageSizeParam_spec "20" 20 pageSizeQuery
  refine ⟨⟨r10.1, r10.2, s10.1, s10.2⟩, ⟨r20.1, r20.2, s20.1, s20.2⟩, pageParam_spec pageQuery,
    ?_, ?_, ?_⟩
  · simp [controller.ListPosts, controller.ListPostsWith, service.ListPosts]
  · intro userIDParam userID hid
    simp [controller.GetUserPosts, controller.GetUserPostsWith, hid, service.GetUserPosts]
  · intro postIDParam other
    simp only [controller.GetPostComments, controller.GetPostCommentsWith]
    cases controller.ParseUint32 postIDParam with
    | none => rfl
    | some postID =>
      simp only [service.GetPostComments]
      cases db.firstPost postID with
      | none => rfl
      | some post => rfl

/-- Claim C11, amended, on the sample store: `page_size` 0, 1000, `abc` and
none give 10, `page_size=50` gives 50, and `page=0` gives page 1. -/
theorem C11_witness :
    controller.pageSizeParam "10" 10 (some "0") = 10 ∧
    controller.pageSizeParam "10" 10 (some "abc") = 10 ∧
    controller.pageSizeParam "10" 10 none = 10 ∧
    controller.pageSizeParam "10" 10 (some "50") = 50 ∧
    controller.pageSizeParam "20" 20 (some "1000") = 20 ∧
    controller.pageParam (some "0") = 1 ∧
    controller.pageParam (some "3") = 3 :=
  have h0 := C11_page_size_defaults_outside_range sampleDB (some "0") (some "0")
  have habc := C11_page_size_defaults_outside_range sampleDB (some "3") (some "abc")
  have hnone := C11_page_size_defaults_outside_range sampleDB none none
  have h50 := C11_page_size_defaults_outside_range sampleDB none (some "50")
  have h1000 := C11_page_size_defaults_outside_range sampleDB none (some "1000")
  ⟨h0.1.2.2.2 (by decide), habc.1.2.2.2 (by decide), hnone.1.2.2.1 10 (by decide) (by decide)
      (by decide),
    h50.1.2.2.1 50 (by decide) (by decide) (by decide), h1000.2.1.2.2.2 (by decide),
    h0.2.2.1.2 (by decide), habc.2.2.1.1 3 (by decide) (by decide)⟩

/-! ## More lemmas on queries -/

theorem firstPost_some (db : DB) (id : Nat) (P : Post) (h : db.firstPost id = some P) :
    P ∈ db.posts ∧ P.DeletedAt = none ∧ P.ID = id := by
  have hm := firstByID_mem _ _ _ h
  simpa [List.mem_filter] using hm

theorem firstComment_some (db : DB) (id : Nat) (C : Comment) (h : db.firstComment id = some C) :
    C ∈ db.comments ∧ C.DeletedAt = none ∧ C.ID = id := by
  have hm := firstByID_mem _ _ _ h
  simpa [List.mem_filter] using hm

theorem firstPost_isSome (db : DB) (id : Nat) (P : Post) (hP : P ∈ db.posts)
    (hlive : P.DeletedAt = none) (hid : P.ID = id) : ∃ Q, db.firstPost id = some Q := by
  cases h : db.firstPost id with
  | some Q => exact ⟨Q, rfl⟩
  | none =>
    unfold DB.firstPost at h
    rw [firstByID_eq_none, List.filter_eq_nil_iff] at h
    have := h P hP
    simp [hlive, hid] at this

/-! ## C12 -/

/-- Claim C12 fails on the sample store with a storage engine that answers
"connection refused": `Register` answers 400, not 500, with the text of the
failure as the error, and `CreatePost` and `ListPosts` answer 500 with a body
that ends in that text. -/
theorem C12_counterexample :
    controller.Register toyBcrypt sampleDB "nacl" 500 (some "connection refused")
        (.ok ⟨"carol", "c@x.com", "secret3"⟩)
      = (controller.errorResponse 400 "connection refused", sampleDB) ∧
    controller.CreatePost sampleDB 500 (some "connection refused") (some 1)
        (.ok ⟨"Second", "Another post of alice"⟩)
      = (controller.errorResponse 500 "创建文章失败: connection refused", sampleDB) ∧
    controller.ListPostsWith (fun _ _ => .error "connection refused") none none
      = controller.errorResponse 500 "获取文章列表失败: connection refused" := by
  decide

/-- Claim C12, amended: when a service method returns a failure with the
text `e`, `CreatePost`, `ListPosts` and `GetUserPosts` answer 500 with `e`
after the label of the operation; `UpdatePost`, `DeletePost`,
`CreateComment`, `GetPostComments` and `DeleteComment` answer 500 with `e`
itself, `e` not being one of the messages they map to 404 or 403;
`Register` answers 400 and `Login` 401 with `e` itself; `GetUser` and
`GetPost` answer 404 with a fixed message. -/
theorem C12_failure_responses (e : String) :
    (∀ (B : Bcrypt) (db db' : DB) (salt : String) (now : Int) (fault : Option String)
        (input : controller.RegisterInput),
      service.CreateUser B db salt now fault input.Username input.Email input.Password
          = (.error e, db') →
      controller.Register B db salt now fault (.ok input)
          = (controller.errorResponse 400 e, db')) ∧
    (∀ (B : Bcrypt) (J : jwt.Codec) (loop : List Char → Except String Nat) (db : DB)
        (cfg : Config) (t1 t2 t3 : Int) (input : controller.LoginInput),
      service.Login B db input.Username input.Password = .error e →
      controller.Login B J loop db cfg t1 t2 t3 (.ok input) = controller.errorResponse 401 e) ∧
    (∀ (db db' : DB) (now : Int) (fault : Option String) (userID : Nat)
        (input : controller.PostInput),
      service.CreatePost db now fault input.Title input.Content userID = (.error e, db') →
      controller.CreatePost db now fault (some userID) (.ok input)
          = (controller.errorResponse 500 ("创建文章失败: " ++ e), db')) ∧
    (∀ (db db' : DB) (now : Int) (fault : Option String) (userID id : Nat) (idParam : String)
        (input : controller.PostInput),
      e ≠ "文章不存在" → e ≠ "没有权限更新此文章" →
      controller.ParseUint32 idParam = some id →
      service.UpdatePost db now fault id input.Title input.Content userID = (.error e, db') →
      controller.UpdatePost db now fault (some userID) idParam (.ok input)
          = (controller.errorResponse 500 e, db')) ∧
    (∀ (db db' : DB) (now : Int) (fault : Option String) (userID id : Nat) (idParam : String),
      e ≠ "文章不存在" → e ≠ "没有权限删除此文章" →
      controller.ParseUint32 idParam = some id →
      service.DeletePost db now fault id userID = (.error e, db') →
      controller.DeletePost db now fault (some userID) idParam
          = (controller.errorResponse 500 e, db')) ∧
    (∀ (db db' : DB) (now : Int) (fault : Option String) (userID postID : Nat)
        (postIDParam : String) (input : controller.CommentInput),
      e ≠ "文章不存在" →
      controller.ParseUint32 postIDParam = some postID →
      service.CreateComment db now fault input.Content userID postID = (.error e, db') →
      controller.CreateComment db now fault (some userID) postIDParam (.ok input)
          = (controller.errorResponse 500 e, db')) ∧
    (∀ (db db' : DB) (now : Int) (fault : Option String) (userID id : Nat) (idParam : String),
      e ≠ "评论不存在" → e ≠ "没有权限删除此评论" →
      controller.ParseUint32 idParam = some id →
      service.DeleteComment db now fault id userID = (.error e, db') →
      controller.DeleteComment db now fault (some userID) idParam
          = (controller.errorResponse 500 e, db')) ∧
    (∀ (listPosts : Int → Int → Except String (List PostView × Int))
        (pageQuery pageSizeQuery : Option String),
      listPosts (controller.pageParam pageQuery) (controller.pageSizeParam "10" 10 pageSizeQuery)
          = .error e →
      controller.ListPostsWith listPosts pageQuery pageSizeQuery
          = controller.errorResponse 500 ("获取文章列表失败: " ++ e)) ∧
    (∀ (getUserPosts : Nat → Int → Int → Except String (List PostView × Int))
        (userIDParam : String) (userID : Nat) (pageQuery pageSizeQuery : Option String),
      controller.ParseUint32 userIDParam = some userID →
      getUserPosts userID (controller.pageParam pageQuery)
          (controller.pageSizeParam "10" 10 pageSizeQuery) = .error e →
      controller.GetUserPostsWith getUserPosts userIDParam pageQuery pageSizeQuery
          = controller.errorResponse 500 ("获取用户文章列表失败: " ++ e)) ∧
    (∀ (getPostComments : Nat → Int → Int → Except String (List CommentView × Int))
        (postIDParam : String) (postID : Nat) (pageQuery pageSizeQuery : Option String),
      e ≠ "文章不存在" →
      controller.ParseUint32 postIDParam = some postID →
      getPostComments postID (controller.pageParam pageQuery)
          (controller.pageSizeParam "20" 20 pageSizeQuery) = .error e →
      controller.GetPostCommentsWith getPostComments postIDParam pageQuery pageSizeQuery
          = controller.errorResponse 500 e) ∧
    (∀ (getUserByID : Nat → Except String User) (idParam : String) (id : Nat),
      controller.ParseUint32 idParam = some id → getUserByID id = .error e →
      controller.GetUserWith getUserByID idParam = controller.errorResponse 404 "用户不存在") ∧
    (∀ (getPostByID : Nat → Except String PostView) (idParam : String) (id : Nat),
      controller.ParseUint32 idParam = some id → getPostByID id = .error e →
      controller.GetPostWith getPostByID idParam = controller.errorResponse 404 "文章不存在") := by
  refine ⟨?_, ?_, ?_, ?_, ?_, ?_, ?_, ?_, ?_, ?_, ?_, ?_⟩
  · intro B db db' salt now fault input h
    simp [controller.Register, h]
  · intro B J loop db cfg t1 t2 t3 input h
    simp [controller.Login, h]
  · intro db db' now fault userID input h
    simp [controller.CreatePost, h]
  · intro db db' now fault userID id idParam input h1 h2 hid h
    simp [controller.UpdatePost, hid, h, h1, h2]
  · intro db db' now fault userID id idParam h1 h2 hid h
    simp [controller.DeletePost, hid, h, h1, h2]
  · intro db db' now fault userID postID postIDParam input h1 hid h
    simp [controller.CreateComment, hid, h, h1]
  · intro db db' now fault userID id idParam h1 h2 hid h
    simp [controller.DeleteComment, hid, h, h1, h2]
  · intro listPosts pageQuery pageSizeQuery h
    simp [controller.ListPostsWith, h]
  · intro getUserPosts userIDParam userID pageQuery pageSizeQuery hid h
    simp [controller.GetUserPostsWith, hid, h]
  · intro getPostComments postIDParam postID pageQuery pageSizeQuery h1 hid h
    simp [controller.GetPostCommentsWith, hid, h, h1]
  · intro getUserByID idParam id hid h
    simp [controller.GetUserWith, hid, h]
  · intro getPostByID idParam id hid h
    simp [controller.GetPostWith, hid, h]

/-- Claim C12, amended, on the sample store with a storage engine that
answers "connection refused": an update by the owner is answered 500 with
that text, a registration 400. -/
theorem C12_witness :
    controller.UpdatePost sampleDB 500 (some "connection refused") (some 1) "1"
        (.ok ⟨"Hello again", "Second thoughts"⟩)
      = (controller.errorResponse 500 "connection refused", sampleDB) ∧
    controller.Register toyBcrypt sampleDB "nacl" 500 (some "connection refused")
        (.ok ⟨"carol", "c@x.com", "secret3"⟩)
      = (controller.errorResponse 400 "connection refused", sampleDB) :=
  have h := C12_failure_responses "connection refused"
  ⟨h.2.2.2.1 sampleDB sampleDB 500 (some "connection refused") 1 1 "1"
      ⟨"Hello again", "Second thoughts"⟩ (by decide) (by decide) (by decide) (by decide),
    h.1 toyBcrypt sampleDB sampleDB "nacl" 500 (some "connection refused")
      ⟨"carol", "c@x.com", "secret3"⟩ (by decide)⟩

/-! ## C13 -/

/-- Claim C13: in a store whose primary keys are unique, a successful
`UpdatePost` of a live post `P` by its owner returns `P` with the new title
and content and the update time `now`, all other columns, `ID` and `UserID`
among them, as they were; in the store that row takes the place of `P`, and
every other post, every comment and every user is as before. -/
theorem C13_update_changes_only_title_and_content (db db' : DB) (hpk : db.PrimaryKeys)
    (P saved : Post) (hP : P ∈ db.posts) (hlive : P.DeletedAt = none) (now : Int)
    (fault : Option String) (title content : String)
    (hok : service.UpdatePost db now fault P.ID title content P.UserID = (.ok saved, db')) :
    saved = { P with Title := title, Content := content, UpdatedAt := now } ∧
    saved.ID = P.ID ∧ saved.UserID = P.UserID ∧ saved.Title = title ∧
    saved.Content = content ∧ saved.CreatedAt = P.CreatedAt ∧ saved.DeletedAt = none ∧
    db'.posts = db.posts.map (fun Q => if Q = P then saved else Q) ∧
    (∀ Q ∈ db.posts, Q ≠ P → Q ∈ db'.posts) ∧
    db'.posts.length = db.posts.length ∧
    db'.comments = db.comments ∧ db'.users = db.users := by
  have hfirst := firstPost_of_mem db hpk P hP hlive
  unfold service.UpdatePost at hok
  rw [hfirst] at hok
  simp only [ne_eq, not_true_eq_false, if_false] at hok
  cases fault with
  | some e => simp [DB.savePost] at hok
  | none =>
    simp only [DB.savePost, Prod.mk.injEq, Except.ok.injEq] at hok
    obtain ⟨hs, hdb⟩ := hok
    have hmap : db.posts.map (fun p =>
          if p.DeletedAt.isNone && decide (p.ID = P.ID) then saved else p)
        = db.posts.map (fun Q => if Q = P then saved else Q) := by
      apply List.map_congr_left
      intro Q hQ
      by_cases hQP : Q = P
      · subst hQP
        simp [hlive]
      · have hne : Q.ID ≠ P.ID := fun h =>
          hQP (List.inj_on_of_nodup_map hpk.2.1 hQ hP h)
        simp [hQP, hne]
    have hposts : db'.posts = db.posts.map (fun Q => if Q = P then saved else Q) := by
      rw [← hdb, ← hmap, ← hs]
    refine ⟨hs.symm, ?_, ?_, ?_, ?_, ?_, ?_, hposts, ?_, ?_, ?_, ?_⟩
    · rw [← hs]
    · rw [← hs]
    · rw [← hs]
    · rw [← hs]
    · rw [← hs]
    · rw [← hs]; exact hlive
    · intro Q hQ hQP
      rw [hposts]
      exact List.mem_map.mpr ⟨Q, hQ, by simp [hQP]⟩
    · rw [hposts, List.length_map]
    · rw [← hdb]
    · rw [← hdb]

/-- Claim C13 on the sample store: alice retitles her post. -/
theorem C13_witness :
    (service.UpdatePost sampleDB 500 none 1 "Hello again" "Second thoughts" 1).2.posts
      = [{ ID := 1, Title := "Hello again", Content := "Second thoughts", UserID := 1,
           CreatedAt := 300, UpdatedAt := 500, DeletedAt := none }] ∧
    (service.UpdatePost sampleDB 500 none 1 "Hello again" "Second thoughts" 1).2.users
      = sampleDB.users :=
  have h := C13_update_changes_only_title_and_content sampleDB
    (service.UpdatePost sampleDB 500 none 1 "Hello again" "Second thoughts" 1).2
    (by decide)
    { ID := 1, Title := "Hello", Content := "First post of alice", UserID := 1,
      CreatedAt := 300, UpdatedAt := 300, DeletedAt := none }
    { ID := 1, Title := "Hello again", Content := "Second thoughts", UserID := 1,
      CreatedAt := 300, UpdatedAt := 500, DeletedAt := none }
    (by decide) (by decide) 500 none "Hello again" "Second thoughts" (by decide)
  ⟨h.2.2.2.2.2.2.2.1.trans (by decide), h.2.2.2.2.2.2.2.2.2.2.2⟩

/-! ## C14 -/

/-- Claim C14: with the insert accepted, `CreateComment` succeeds exactly
when a live post has the key `postID`.  Without such a post the result is
"文章不存在", answered 404, and the store is as it was, whatever the storage
engine would answer; with one, the store gains exactly one comment, live,
with the actor as `UserID`, `postID` as `PostID` and the given content.
`CreatePost`, the insert accepted, adds exactly one post, with the actor as
`UserID`. -/
theorem C14_comment_needs_live_post (db : DB) (now : Int) (content : String)
    (userID postID : Nat) :
    ((∀ P ∈ db.posts, P.DeletedAt = none → P.ID ≠ postID) →
      ∀ fault : Option String,
        service.CreateComment db now fault content userID postID
            = (.error "文章不存在", db) ∧
        ∀ postIDParam : String, controller.ParseUint32 postIDParam = some postID →
          controller.CreateComment db now fault (some userID) postIDParam (.ok ⟨content⟩)
            = (controller.errorResponse 404 "文章不存在", db)) ∧
    ((∃ P ∈ db.posts, P.DeletedAt = none ∧ P.ID = postID) →
      ∃ created : Comment,
        service.CreateComment db now none content userID postID
            = (.ok created, { db with comments := db.comments ++ [created] }) ∧
        created.UserID = userID ∧ created.PostID = postID ∧ created.Content = content ∧
        created.DeletedAt = none ∧ created.CreatedAt = now) ∧
    ((∃ created db', service.CreateComment db now none content userID postID
          = (.ok created, db')) ↔
      ∃ P ∈ db.posts, P.DeletedAt = none ∧ P.ID = postID) ∧
    (∀ title : String, ∃ created : Post,
      service.CreatePost db now none title content userID
          = (.ok created, { db with posts := db.posts ++ [created] }) ∧
      created.UserID = userID ∧ created.Title = title ∧ created.Content = content ∧
      created.DeletedAt = none) := by
  have hno : (∀ P ∈ db.posts, P.DeletedAt = none → P.ID ≠ postID) →
      ∀ fault : Option String,
        service.CreateComment db now fault content userID postID
          = (.error "文章不存在", db) := by
    intro h fault
    simp [service.CreateComment, firstPost_eq_none db postID h]
  have hyes : (∃ P ∈ db.posts, P.DeletedAt = none ∧ P.ID = postID) →
      ∃ created : Comment,
        service.CreateComment db now none content userID postID
            = (.ok created, { db with comments := db.comments ++ [created] }) ∧
        created.UserID = userID ∧ created.PostID = postID ∧ created.Content = content ∧
        created.DeletedAt = none ∧ created.CreatedAt = now := by
    rintro ⟨P, hP, hlive, hid⟩
    obtain ⟨Q, hQ⟩ := firstPost_isSome db postID P hP hlive hid
    refine ⟨{ ID := nextID Comment.ID db.comments, Content := content, UserID := userID,
              PostID := postID, CreatedAt := now, DeletedAt := none }, ?_, rfl, rfl, rfl, rfl,
              rfl⟩
    simp [service.CreateComment, hQ, DB.createComment]
  refine ⟨?_, hyes, ?_, ?_⟩
  · intro h fault
    refine ⟨hno h fault, ?_⟩
    intro postIDParam hid
    simp [controller.CreateComment, hid, hno h fault]
  · constructor
    · rintro ⟨created, db', hok⟩
      by_contra hcon
      have habs : ∀ P ∈ db.posts, P.DeletedAt = none → P.ID ≠ postID := by
        intro P hP hlive hid
        exact hcon ⟨P, hP, hlive, hid⟩
      rw [hno habs none] at hok
      simp at hok
    · intro h
      obtain ⟨created, hc, _⟩ := hyes h
      exact ⟨created, _, hc⟩
  · intro title
    refine ⟨{ ID := nextID Post.ID db.posts, Title := title, Content := content,
              UserID := userID, CreatedAt := now, UpdatedAt := now, DeletedAt := none }, ?_,
              rfl, rfl, rfl, rfl⟩
    simp [service.CreatePost, DB.createPost]

/-- Claim C14 on the sample store: a comment on post 1 is added, a comment on
the missing post 9 is refused. -/
theorem C14_witness :
    service.CreateComment sampleDB 500 none "Thanks" 1 9 = (.error "文章不存在", sampleDB) ∧
    (∃ created : Comment,
      service.CreateComment sampleDB 500 none "Thanks" 1 1
          = (.ok created, { sampleDB with comments := sampleDB.comments ++ [created] }) ∧
      created.UserID = 1 ∧ created.PostID = 1 ∧ created.Content = "Thanks" ∧
      created.DeletedAt = none ∧ created.CreatedAt = 500) :=
  ⟨((C14_comment_needs_live_post sampleDB 500 "Thanks" 1 9).1 (by decide) none).1,
   (C14_comment_needs_live_post sampleDB 500 "Thanks" 1 1).2.1 (by decide)⟩

/-! ## Lemmas on soft deletion -/

theorem mem_offsetLimit {α : Type} (offset limit : Int) (rows : List α) (x : α)
    (h : x ∈ offsetLimit offset limit rows) : x ∈ rows := by
  unfold offsetLimit at h
  have hskip : ∀ y, y ∈ (if 0 < offset then rows.drop offset.toNat else rows) → y ∈ rows := by
    intro y hy
    by_cases ho : 0 < offset
    · simp only [ho, if_true] at hy
      exact List.mem_of_mem_drop hy
    · simpa only [ho, if_false] using hy
  by_cases hl : 0 ≤ limit
  · simp only [hl, if_true] at h
    exact hskip x (List.mem_of_mem_take h)
  · simp only [hl, if_false] at h
    exact hskip x h

theorem mem_orderByCreatedAtDesc {α : Type} (createdAt : α → Int) (rows : List α) (x : α) :
    x ∈ orderByCreatedAtDesc createdAt rows ↔ x ∈ rows := by
  unfold orderByCreatedAtDesc
  exact (List.perm_insertionSort _ rows).mem_iff

/-- What a successful `DeletePost` did: it found a live post with the key,
owned by the actor, and marked the live rows with that key as deleted. -/
theorem DeletePost_ok (db db' : DB) (now : Int) (fault : Option String) (id userID : Nat)
    (h : service.DeletePost db now fault id userID = (.ok (), db')) :
    ∃ P, db.firstPost id = some P ∧ P.UserID = userID ∧
      db' = { db with posts := db.posts.map fun p =>
        if p.DeletedAt.isNone && decide (p.ID = id) then { p with DeletedAt := some now }
        else p } := by
  unfold service.DeletePost at h
  cases hf : db.firstPost id with
  | none => rw [hf] at h; simp at h
  | some P =>
    rw [hf] at h
    obtain ⟨_, _, hid⟩ := firstPost_some db id P hf
    by_cases hown : P.UserID ≠ userID
    · simp [hown] at h
    · simp only [hown, if_false] at h
      cases fault with
      | some e => simp [DB.deletePost] at h
      | none =>
        simp only [DB.deletePost, Prod.mk.injEq, hid] at h
        exact ⟨P, rfl, not_not.mp hown, h.2.symm⟩

theorem DeleteComment_ok (db db' : DB) (now : Int) (fault : Option String) (id userID : Nat)
    (h : service.DeleteComment db now fault id userID = (.ok (), db')) :
    ∃ C, db.firstComment id = some C ∧ C.UserID = userID ∧
      db' = { db with comments := db.comments.map fun c =>
        if c.DeletedAt.isNone && decide (c.ID = id) then { c with DeletedAt := some now }
        else c } := by
  unfold service.DeleteComment at h
  cases hf : db.firstComment id with
  | none => rw [hf] at h; simp at h
  | some C =>
    rw [hf] at h
    obtain ⟨_, _, hid⟩ := firstComment_some db id C hf
    by_cases hown : C.UserID ≠ userID
    · simp [hown] at h
    · simp only [hown, if_false] at h
      cases fault with
      | some e => simp [DB.deleteComment] at h
      | none =>
        simp only [DB.deleteComment, Prod.mk.injEq, hid] at h
        exact ⟨C, rfl, not_not.mp hown, h.2.symm⟩

theorem no_live_post_after_delete (posts : List Post) (now : Int) (id : Nat) :
    ∀ p ∈ posts.map (fun p : Post =>
        if p.DeletedAt.isNone && decide (p.ID = id) then { p with DeletedAt := some now }
        else p),
      p.DeletedAt = none → p.ID ≠ id := by
  intro p hp hlive
  obtain ⟨q, _, hq⟩ := List.mem_map.mp hp
  by_cases hc : (q.DeletedAt.isNone && decide (q.ID = id)) = true
  · rw [if_pos hc] at hq
    rw [← hq] at hlive
    simp at hlive
  · rw [if_neg hc] at hq
    subst hq
    intro hid
    simp [hlive, hid] at hc

theorem no_live_comment_after_delete (comments : List Comment) (now : Int) (id : Nat) :
    ∀ c ∈ comments.map (fun c : Comment =>
        if c.DeletedAt.isNone && decide (c.ID = id) then { c with DeletedAt := some now }
        else c),
      c.DeletedAt = none → c.ID ≠ id := by
  intro c hc hlive
  obtain ⟨q, _, hq⟩ := List.mem_map.mp hc
  by_cases hcond : (q.DeletedAt.isNone && decide (q.ID = id)) = true
  · rw [if_pos hcond] at hq
    rw [← hq] at hlive
    simp at hlive
  · rw [if_neg hcond] at hq
    subst hq
    intro hid
    simp [hlive, hid] at hcond

/-! ## C15 -/

/-- Claim C15: after a successful `DeletePost` of `id` the row of the post is
still in the table, with its deletion time set, and no row was removed;
`GetPostByID` of `id` fails, no page of `ListPosts` or `GetUserPosts`
contains a post with that key, and `UpdatePost` and `DeletePost` of `id`
return not-found for every actor.  After a successful `DeleteComment` the
same holds for the comment: its row stays, marked deleted, `GetCommentByID`
fails, no page of `GetPostComments` and no `Comments` of a `GetPostByID`
contains it, and a further `DeleteComment` returns not-found. -/
theorem C15_deletion_is_logical (db db' : DB) (now : Int) (fault : Option String)
    (id owner : Nat) :
    (service.DeletePost db now fault id owner = (.ok (), db') →
      (∃ P ∈ db.posts, P.DeletedAt = none ∧ P.ID = id ∧
        { P with DeletedAt := some now } ∈ db'.posts) ∧
      db'.posts.map Post.ID = db.posts.map Post.ID ∧
      db'.comments = db.comments ∧ db'.users = db.users ∧
      service.GetPostByID db' id = .error ErrRecordNotFound ∧
      (∀ (idParam : String), controller.ParseUint32 idParam = some id →
        controller.GetPost db' idParam = controller.errorResponse 404 "文章不存在") ∧
      (∀ (page pageSize : Int) (posts : List PostView) (total : Int),
        service.ListPosts db' page pageSize = .ok (posts, total) →
        ∀ v ∈ posts, v.row.ID ≠ id) ∧
      (∀ (userID : Nat) (page pageSize : Int) (posts : List PostView) (total : Int),
        service.GetUserPosts db' userID page pageSize = .ok (posts, total) →
        ∀ v ∈ posts, v.row.ID ≠ id) ∧
      (∀ (actor : Nat) (later : Int) (fault' : Option String) (title content : String),
        service.UpdatePost db' later fault' id title content actor
          = (.error "文章不存在", db')) ∧
      (∀ (actor : Nat) (later : Int) (fault' : Option String),
        service.DeletePost db' later fault' id actor = (.error "文章不存在", db'))) ∧
    (service.DeleteComment db now fault id owner = (.ok (), db') →
      (∃ C ∈ db.comments, C.DeletedAt = none ∧ C.ID = id ∧
        { C with DeletedAt := some now } ∈ db'.comments) ∧
      db'.comments.map Comment.ID = db.comments.map Comment.ID ∧
      db'.posts = db.posts ∧ db'.users = db.users ∧
      service.GetCommentByID db' id = .error ErrRecordNotFound ∧
      (∀ (postID : Nat) (page pageSize : Int) (comments : List CommentView) (total : Int),
        service.GetPostComments db' postID page pageSize = .ok (comments, total) →
        ∀ v ∈ comments, v.row.ID ≠ id) ∧
      (∀ (postID : Nat) (view : PostView), service.GetPostByID db' postID = .ok view →
        ∀ v ∈ view.Comments, v.row.ID ≠ id) ∧
      (∀ (actor : Nat) (later : Int) (fault' : Option String),
        service.DeleteComment db' later fault' id actor = (.error "评论不存在", db'))) := by
  constructor
  · intro hok
    obtain ⟨P, hfirst, _, hdb⟩ := DeletePost_ok db db' now fault id owner hok
    obtain ⟨hP, hlive, hid⟩ := firstPost_some db id P hfirst
    have hposts : db'.posts = db.posts.map (fun p : Post =>
        if p.DeletedAt.isNone && decide (p.ID = id) then { p with DeletedAt := some now }
        else p) := by rw [hdb]
    have hgone : ∀ p ∈ db'.posts, p.DeletedAt = none → p.ID ≠ id := by
      rw [hposts]
      exact no_live_post_after_delete db.posts now id
    have hnone : db'.firstPost id = none := firstPost_eq_none db' id hgone
    have hliveRows : ∀ p ∈ db'.livePosts, p.ID ≠ id := by
      intro p hp
      obtain ⟨hm, hl⟩ := List.mem_filter.mp hp
      exact hgone p hm (by simpa using hl)
    have hget : service.GetPostByID db' id = .error ErrRecordNotFound := by
      simp [service.GetPostByID, hnone]
    refine ⟨⟨P, hP, hlive, hid, ?_⟩, ?_, by rw [hdb], by rw [hdb], hget, ?_, ?_, ?_, ?_, ?_⟩
    · rw [hposts]
      exact List.mem_map.mpr ⟨P, hP, by simp [hlive, hid]⟩
    · rw [hposts, List.map_map]
      apply List.map_congr_left
      intro p _
      simp only [Function.comp]
      split <;> rfl
    · intro idParam hparse
      simp [controller.GetPost, controller.GetPostWith, hparse, hget]
    · intro page pageSize posts total hlist v hv
      simp only [service.ListPosts, Except.ok.injEq, Prod.mk.injEq] at hlist
      rw [← hlist.1] at hv
      obtain ⟨p, hp, hpv⟩ := List.mem_map.mp hv
      rw [← hpv]
      exact hliveRows p ((mem_orderByCreatedAtDesc _ _ _).mp (mem_offsetLimit _ _ _ _ hp))
    · intro userID page pageSize posts total hlist v hv
      simp only [service.GetUserPosts, Except.ok.injEq, Prod.mk.injEq] at hlist
      rw [← hlist.1] at hv
      obtain ⟨p, hp, hpv⟩ := List.mem_map.mp hv
      rw [← hpv]
      have hp' := (mem_orderByCreatedAtDesc _ _ _).mp (mem_offsetLimit _ _ _ _ hp)
      exact hliveRows p (List.mem_filter.mp hp').1
    · intro actor later fault' title content
      simp [service.UpdatePost, hnone]
    · intro actor later fault'
      simp [service.DeletePost, hnone]
  · intro hok
    obtain ⟨C, hfirst, _, hdb⟩ := DeleteComment_ok db db' now fault id owner hok
    obtain ⟨hC, hlive, hid⟩ := firstComment_some db id C hfirst
    have hcomments : db'.comments = db.comments.map (fun c : Comment =>
        if c.DeletedAt.isNone && decide (c.ID = id) then { c with DeletedAt := some now }
        else c) := by rw [hdb]
    have hgone : ∀ c ∈ db'.comments, c.DeletedAt = none → c.ID ≠ id := by
      rw [hcomments]
      exact no_live_comment_after_delete db.comments now id
    have hnone : db'.firstComment id = none := firstComment_eq_none db' id hgone
    have hliveRows : ∀ c ∈ db'.liveComments, c.ID ≠ id := by
      intro c hc
      obtain ⟨hm, hl⟩ := List.mem_filter.mp hc
      exact hgone c hm (by simpa using hl)
    refine ⟨⟨C, hC, hlive, hid, ?_⟩, ?_, by rw [hdb], by rw [hdb], ?_, ?_, ?_, ?_⟩
    · rw [hcomments]
      exact List.mem_map.mpr ⟨C, hC, by simp [hlive, hid]⟩
    · rw [hcomments, List.map_map]
      apply List.map_congr_left
      intro c _
      simp only [Function.comp]
      split <;> rfl
    · simp [service.GetCommentByID, hnone]
    · intro postID page pageSize comments total hlist v hv
      unfold service.GetPostComments at hlist
      cases hpost : db'.firstPost postID with
      | none => rw [hpost] at hlist; simp at hlist
      | some post =>
        rw [hpost] at hlist
        simp only [Except.ok.injEq, Prod.mk.injEq] at hlist
        rw [← hlist.1] at hv
        obtain ⟨c, hc, hcv⟩ := List.mem_map.mp hv
        rw [← hcv]
        have hc' := (mem_orderByCreatedAtDesc _ _ _).mp (mem_offsetLimit _ _ _ _ hc)
        exact hliveRows c (List.mem_filter.mp hc').1
    · intro postID view hview v hv
      unfold service.GetPostByID at hview
      cases hpost : db'.firstPost postID with
      | none => rw [hpost] at hview; simp at hview
      | some post =>
        rw [hpost] at hview
        simp only [Except.ok.injEq] at hview
        rw [← hview] at hv
        obtain ⟨c, hc, hcv⟩ := List.mem_map.mp hv
        rw [← hcv]
        exact hliveRows c (List.mem_filter.mp hc).1
    · intro actor later fault'
      simp [service.DeleteComment, hnone]

/-- Claim C15 on the sample store: alice deletes her post, bob his comment. -/
theorem C15_witness :
    service.GetPostByID (service.DeletePost sampleDB 500 none 1 1).2 1
      = .error ErrRecordNotFound ∧
    service.DeletePost (service.DeletePost sampleDB 500 none 1 1).2 600 none 1 1
      = (.error "文章不存在", (service.DeletePost sampleDB 500 none 1 1).2) ∧
    service.GetCommentByID (service.DeleteComment sampleDB 500 none 1 2).2 1
      = .error ErrRecordNotFound :=
  have hp := (C15_deletion_is_logical sampleDB (service.DeletePost sampleDB 500 none 1 1).2
    500 none 1 1).1 (by decide)
  have hc := (C15_deletion_is_logical sampleDB (service.DeleteComment sampleDB 500 none 1 2).2
    500 none 1 2).2 (by decide)
  ⟨hp.2.2.2.2.1, hp.2.2.2.2.2.2.2.2.2 1 600 none, hc.2.2.2.2.1⟩

/-! ## Lemmas on the middleware -/

theorem SplitN2_pair (s a b : String) (h : SplitN2 s = [a, b]) : s = a ++ " " ++ b := by
  unfold SplitN2 at h
  rw [List.span_eq_take_drop] at h
  have htd := List.takeWhile_append_dropWhile (fun c => c != ' ') s.data
  cases hd : List.dropWhile (fun c => c != ' ') s.data with
  | nil => rw [hd] at h; simp at h
  | cons c rest =>
    rw [hd] at h htd
    simp only [List.cons.injEq, and_true] at h
    have hc : c = ' ' := by
      have := List.head_dropWhile_not (fun c => c != ' ') s.data (by rw [hd]; simp)
      simp only [hd, List.head_cons] at this
      simpa using this
    apply String.ext
    rw [String.data_append, String.data_append, ← h.1, ← h.2]
    subst hc
    simpa using htd.symm

theorem AuthMiddleware_next_iff (J : jwt.Codec) (cfg : Config) (now : Int)
    (authHeader : String) (userID : Nat) :
    middleware.AuthMiddleware J cfg now authHeader = .next userID ↔
      ∃ tokenString claims, authHeader = "Bearer " ++ tokenString ∧
        jwt.ParseWithClaims J tokenString cfg.JWTSecret now = some claims ∧
        claims.UserID = userID := by
  constructor
  · intro h
    unfold middleware.AuthMiddleware at h
    by_cases he : authHeader = ""
    · simp [he] at h
    · simp only [he, if_false] at h
      split at h
      · rename_i scheme tokenString hsplit
        by_cases hs : scheme = "Bearer"
        · simp only [hs, if_true] at h
          cases hp : jwt.ParseWithClaims J tokenString cfg.JWTSecret now with
          | none => rw [hp] at h; simp at h
          | some claims =>
            rw [hp] at h
            simp only [middleware.Outcome.next.injEq] at h
            refine ⟨tokenString, claims, ?_, hp, h⟩
            have := SplitN2_pair authHeader scheme tokenString hsplit
            rw [this, hs, String.append_assoc]
            rfl
        · simp [hs] at h
      · simp at h
  · rintro ⟨tokenString, claims, hh, hp, hu⟩
    subst hh
    simp [middleware.AuthMiddleware, bearer_ne_empty, SplitN2_bearer, hp, hu]

theorem AuthMiddleware_abort_or_next (J : jwt.Codec) (cfg : Config) (now : Int)
    (authHeader : String) :
    (∃ message, middleware.AuthMiddleware J cfg now authHeader = .abort 401 message) ∨
    (∃ userID, middleware.AuthMiddleware J cfg now authHeader = .next userID) := by
  unfold middleware.AuthMiddleware
  by_cases he : authHeader = ""
  · exact Or.inl ⟨"未提供认证令牌", by simp [he]⟩
  · simp only [he, if_false]
    split
    · rename_i scheme tokenString hsplit
      by_cases hs : scheme = "Bearer"
      · simp only [hs, if_true]
        cases jwt.ParseWithClaims J tokenString cfg.JWTSecret now with
        | none => exact Or.inl ⟨_, rfl⟩
        | some claims => exact Or.inr ⟨_, rfl⟩
      · exact Or.inl ⟨"认证令牌格式错误", by simp [hs]⟩
    · exact Or.inl ⟨_, rfl⟩

theorem ParseWithClaims_some_iff (J : jwt.Codec) (tokenString key : String) (now : Int)
    (claims : Claims) :
    jwt.ParseWithClaims J tokenString key now = some claims ↔
      J.decode tokenString = some claims ∧ J.verify tokenString key = true ∧
        jwt.validate now claims = true := by
  unfold jwt.ParseWithClaims
  cases hd : J.decode tokenString with
  | none => simp
  | some c =>
    by_cases hv : J.verify tokenString key = true
    · by_cases hval : jwt.validate now c = true
      · simp only [hv, hval, if_true, Option.some.injEq, true_and]
        constructor
        · intro h; subst h; exact ⟨rfl, hval⟩
        · intro h; exact h.1
      · simp only [hv, hval, if_true, Option.some.injEq, true_and]
        constructor
        · intro h; simp at h
        · rintro ⟨h1, h3⟩
          subst h1
          exact absurd h3 hval
    · simp only [hv]
      constructor
      · intro h; simp at h
      · rintro ⟨_, h2, _⟩
        simp at h2

/-! ## C16 -/

/-- Claim C16: the middleware lets a request through exactly when the
`Authorization` header is "Bearer", one space and a token that is well
formed, carries a valid signature for the configured secret and passes the
time validation, and the `userID` it sets is the `user_id` claim of that
token; for every other header it aborts with 401.  On each of the five
protected routes the response of an aborted request is the one of the
middleware and the store is untouched, and the handler runs, with that
`userID`, only for a request that was let through. -/
theorem C16_bearer_token_required (J : jwt.Codec) (cfg : Config) (authTime : Int)
    (authHeader : String) :
    (∀ userID : Nat, middleware.AuthMiddleware J cfg authTime authHeader = .next userID ↔
      ∃ tokenString claims, authHeader = "Bearer " ++ tokenString ∧
        J.decode tokenString = some claims ∧ J.verify tokenString cfg.JWTSecret = true ∧
        jwt.validate authTime claims = true ∧ claims.UserID = userID) ∧
    ((¬ ∃ tokenString claims, authHeader = "Bearer " ++ tokenString ∧
        J.decode tokenString = some claims ∧ J.verify tokenString cfg.JWTSecret = true ∧
        jwt.validate authTime claims = true) →
      ∃ message, middleware.AuthMiddleware J cfg authTime authHeader = .abort 401 message) ∧
    (∀ (db : DB) (now : Int) (fault : Option String) (req : router.ProtectedRequest),
      (∀ status message,
        middleware.AuthMiddleware J cfg authTime authHeader = .abort status message →
        router.serveProtected J cfg db authTime now fault authHeader req
          = (controller.errorResponse status message, db)) ∧
      (∀ userID, middleware.AuthMiddleware J cfg authTime authHeader = .next userID →
        router.serveProtected J cfg db authTime now fault authHeader req
          = router.handler db now fault (some userID) req)) := by
  have hiff : ∀ userID : Nat,
      middleware.AuthMiddleware J cfg authTime authHeader = .next userID ↔
      ∃ tokenString claims, authHeader = "Bearer " ++ tokenString ∧
        J.decode tokenString = some claims ∧ J.verify tokenString cfg.JWTSecret = true ∧
        jwt.validate authTime claims = true ∧ claims.UserID = userID := by
    intro userID
    rw [AuthMiddleware_next_iff]
    constructor
    · rintro ⟨tokenString, claims, hh, hp, hu⟩
      obtain ⟨h1, h2, h3⟩ := (ParseWithClaims_some_iff J _ _ _ _).mp hp
      exact ⟨tokenString, claims, hh, h1, h2, h3, hu⟩
    · rintro ⟨tokenString, claims, hh, h1, h2, h3, hu⟩
      exact ⟨tokenString, claims, hh, (ParseWithClaims_some_iff J _ _ _ _).mpr ⟨h1, h2, h3⟩, hu⟩
  refine ⟨hiff, ?_, ?_⟩
  · intro hnot
    rcases AuthMiddleware_abort_or_next J cfg authTime authHeader with h | ⟨userID, h⟩
    · exact h
    · obtain ⟨tokenString, claims, hh, h1, h2, h3, _⟩ := (hiff userID).mp h
      exact absurd ⟨tokenString, claims, hh, h1, h2, h3⟩ hnot
  · intro db now fault req
    constructor
    · intro status message h
      simp [router.serveProtected, h]
    · intro userID h
      simp [router.serveProtected, h]

/-- Claim C16 for a codec that knows the token `tok` of user 7: the header
`Bearer tok` passes with `userID` 7; the empty header, a header without a
space, the scheme in lower case and an unknown token are answered 401. -/
theorem C16_witness :
    middleware.AuthMiddleware
        (oneTokenCodec (sampleClaims 7 1700000000500000000 1000000000) "default_secret" "tok")
        (sampleConfig "1s") 1700000000500000000 ("Bearer " ++ "tok") = .next 7 ∧
    (∃ message, middleware.AuthMiddleware
        (oneTokenCodec (sampleClaims 7 1700000000500000000 1000000000) "default_secret" "tok")
        (sampleConfig "1s") 1700000000500000000 "bearer tok" = .abort 401 message) :=
  ⟨((C16_bearer_token_required
      (oneTokenCodec (sampleClaims 7 1700000000500000000 1000000000) "default_secret" "tok")
      (sampleConfig "1s") 1700000000500000000 ("Bearer " ++ "tok")).1 7).mpr
      ⟨"tok", sampleClaims 7 1700000000500000000 1000000000, rfl, by decide, by decide,
        by decide, by decide⟩,
   (C16_bearer_token_required
      (oneTokenCodec (sampleClaims 7 1700000000500000000 1000000000) "default_secret" "tok")
      (sampleConfig "1s") 1700000000500000000 "bearer tok").2.1
      (by
        rintro ⟨tokenString, claims, hh, _⟩
        have := congrArg String.data hh
        rw [String.data_append] at this
        simp at this)⟩

/-! ## C17 -/

/-- Claim C17 at `page=9223372036854775807`: the page parses and is kept, the
product `(page - 1) * pageSize` wraps around to the offset -20, and the query
returns the rows of the first page, where page 2 of the same store is
empty. -/
theorem C17_offset_wraps_negative :
    controller.pageParam (some "9223372036854775807") = 9223372036854775807 ∧
    controller.pageSizeParam "10" 10 none = 10 ∧
    service.offset (controller.pageParam (some "9223372036854775807"))
        (controller.pageSizeParam "10" 10 none) = -20 ∧
    service.ListPosts sampleDB 9223372036854775807 10 = service.ListPosts sampleDB 1 10 ∧
    service.ListPosts sampleDB 2 10 = .ok ([], 1) := by
  decide

end Blog
